import Mathlib

/-!
Verification development for the chart-pattern detection engine of the
loopweave repository (backend/analytics/utils/chart_patterns.py and
backend/analytics/utils/ta_metrics.py).

Prices are modelled as exact rationals; each Python function is translated
into a computable Lean function of the same name.  The scipy helper
signal.find_peaks (restricted to the distance and prominence options used
by the source) is embedded following its reference algorithm:
local-maxima scan with plateau midpoints, then the distance filter, then
the prominence filter.  The prominence threshold 0.5 * std(xs) is compared
without square roots: for a nonnegative prominence p, p >= 0.5 * sqrt(var)
holds iff 0 <= p and var <= 4 * p ^ 2.
-/

namespace Loopweave

/-- One OHLCV bar of the input series (the Bar of the data model).
Timestamps are modelled as naturals. -/
structure Bar where
  ts : ℕ
  op : ℚ
  high : ℚ
  low : ℚ
  close : ℚ
  volume : ℚ
deriving DecidableEq, Repr

/-- Sum of a list of rationals. -/
def qsum (l : List ℚ) : ℚ := l.foldl (· + ·) 0

/-- Population mean (np.mean); 0 on the empty list (not reached by the code). -/
def meanOf (l : List ℚ) : ℚ := qsum l / (l.length : ℚ)

/-- Population variance, the square of np.std (ddof = 0). -/
def varOf (l : List ℚ) : ℚ :=
  qsum (l.map (fun x => (x - meanOf l) ^ 2)) / (l.length : ℚ)

/-- Maximum of a list (pandas Series.max); 0 on the empty list. -/
def maxOf (l : List ℚ) : ℚ :=
  match l with
  | [] => 0
  | h :: t => t.foldl max h

/-- Minimum of a list (pandas Series.min); 0 on the empty list. -/
def minOf (l : List ℚ) : ℚ :=
  match l with
  | [] => 0
  | h :: t => t.foldl min h

/-- Plateau scan of scipy _local_maxima_1d: starting at j, advance while
the value equals v and j < imax; returns the first index past the plateau.
Fuel-driven rendering of the while loop. -/
def aheadGo (x : List ℚ) (v : ℚ) (imax : ℕ) : ℕ → ℕ → ℕ
  | j, 0 => j
  | j, fuel + 1 =>
    if j < imax ∧ x.getD j 0 = v then aheadGo x v imax (j + 1) fuel else j

/-- Main loop of scipy _local_maxima_1d: scans i from 1 to n - 2, records
the midpoint (l + r) / 2 of every maximal plateau that rises on the left
and falls on the right.  Fuel-driven rendering of the while loop. -/
def localMaximaGo (x : List ℚ) (n : ℕ) : ℕ → ℕ → List ℕ
  | _, 0 => []
  | i, fuel + 1 =>
    if i < n - 1 then
      if x.getD (i - 1) 0 < x.getD i 0 then
        let ia := aheadGo x (x.getD i 0) (n - 1) (i + 1) n
        if x.getD ia 0 < x.getD i 0 then
          (i + (ia - 1)) / 2 :: localMaximaGo x n (ia + 1) fuel
        else
          localMaximaGo x n (i + 1) fuel
      else
        localMaximaGo x n (i + 1) fuel
    else []

/-- Indices of the local maxima of x (scipy _local_maxima_1d). -/
def localMaxima (x : List ℚ) : List ℕ :=
  localMaximaGo x x.length 1 x.length

/-- Insert index i into an ascending-by-priority index list, after all
entries of smaller or equal priority (stability of np.argsort on the
priority vector). -/
def insertAsc (p : List ℚ) (i : ℕ) : List ℕ → List ℕ
  | [] => [i]
  | j :: t => if p.getD j 0 ≤ p.getD i 0 then j :: insertAsc p i t else i :: j :: t

/-- Stable ascending argsort of a priority vector. -/
def argsortAsc (p : List ℚ) : List ℕ :=
  (List.range p.length).foldl (fun acc i => insertAsc p i acc) []

/-- Left-clearing while loop of scipy _select_by_peak_distance: walking
left from index j (kk encodes k + 1), clear keep flags while the peak
distance stays below d, stopping at the first failure. -/
def clearLeftGo (peaks : List ℕ) (pj d : ℕ) : List Bool → ℕ → List Bool
  | keep, 0 => keep
  | keep, kk + 1 =>
    if pj - peaks.getD kk 0 < d then clearLeftGo peaks pj d (keep.set kk false) kk
    else keep

/-- Right-clearing while loop of scipy _select_by_peak_distance. -/
def clearRightGo (peaks : List ℕ) (pj d size : ℕ) : List Bool → ℕ → ℕ → List Bool
  | keep, _, 0 => keep
  | keep, k, fuel + 1 =>
    if k < size ∧ peaks.getD k 0 - pj < d then
      clearRightGo peaks pj d size (keep.set k false) (k + 1) fuel
    else keep

/-- scipy _select_by_peak_distance: processing peaks from highest to
lowest priority, each still-kept peak clears all neighbours closer than
d on both sides.  Returns the keep mask aligned with the peaks list. -/
def selectByPeakDistance (peaks : List ℕ) (priority : List ℚ) (d : ℕ) : List Bool :=
  (argsortAsc priority).reverse.foldl
    (fun keep j =>
      if keep.getD j false = false then keep
      else
        let keep1 := clearLeftGo peaks (peaks.getD j 0) d keep j
        clearRightGo peaks (peaks.getD j 0) d peaks.length keep1 (j + 1) peaks.length)
    (List.replicate peaks.length true)

/-- Leftward base scan of scipy _peak_prominences: from index i downward
while x stays at most v, accumulate the minimum (i is consumed as a
structural counter, matching the while i_min <= i loop). -/
def leftMinGo (x : List ℚ) (v : ℚ) : ℚ → ℕ → ℚ
  | cur, 0 => if x.getD 0 0 ≤ v then min cur (x.getD 0 0) else cur
  | cur, i + 1 =>
    if x.getD (i + 1) 0 ≤ v then leftMinGo x v (min cur (x.getD (i + 1) 0)) i else cur

/-- Rightward base scan of scipy _peak_prominences (fuel-driven while
i <= i_max loop). -/
def rightMinGo (x : List ℚ) (v : ℚ) (imax : ℕ) : ℚ → ℕ → ℕ → ℚ
  | cur, _, 0 => cur
  | cur, i, fuel + 1 =>
    if i ≤ imax ∧ x.getD i 0 ≤ v then
      rightMinGo x v imax (min cur (x.getD i 0)) (i + 1) fuel
    else cur

/-- Prominence of the peak at index p (scipy _peak_prominences, wlen
unset): the peak value minus the higher of the two base minima. -/
def prominenceAt (x : List ℚ) (p : ℕ) : ℚ :=
  let v := x.getD p 0
  let lm := leftMinGo x v v p
  let rm := rightMinGo x v (x.length - 1) v p x.length
  v - max lm rm

/-- Prominence threshold test against 0.5 * std: for prominence p and
variance v of the reference series, p >= 0.5 * sqrt v iff 0 <= p and
v <= 4 * p ^ 2 (exact, square-root free). -/
def promPass (p v : ℚ) : Bool :=
  decide (0 ≤ p ∧ v ≤ 4 * p ^ 2)

/-- signal.find_peaks x with the distance and prominence options used by
the source: local maxima, then the distance filter, then the prominence
filter with threshold 0.5 * std of the series whose variance is v. -/
def findPeaksIdx (x : List ℚ) (distance : ℕ) (v : ℚ) : List ℕ :=
  let maxima := localMaxima x
  let priority := maxima.map (fun i => x.getD i 0)
  let keep := selectByPeakDistance maxima priority distance
  let kept := ((maxima.zip keep).filter (fun pk => pk.2)).map (fun pk => pk.1)
  kept.filter (fun p => promPass (prominenceAt x p) v)

/-- Boolean mask of length n that is true exactly at the listed indices. -/
def maskOf (n : ℕ) (idxs : List ℕ) : List Bool :=
  (List.range n).map (fun i => idxs.contains i)

/-- find_local_extrema: peaks from the highs, troughs from the negated
lows, each with the given minimum distance and a prominence threshold of
half the population std of the respective raw series. -/
def find_local_extrema (df : List Bar) (window : ℕ) : List Bool × List Bool :=
  let highs := df.map Bar.high
  let lows := df.map Bar.low
  let peakIdx := findPeaksIdx highs window (varOf highs)
  let troughIdx := findPeaksIdx (lows.map (fun v => -v)) window (varOf lows)
  (maskOf df.length peakIdx, maskOf df.length troughIdx)

/-- Trailing window of the detectors: df.iloc[i - lookback : i], the
lookback elements that end at and exclude position i. -/
def sliceW (df : List α) (i L : ℕ) : List α := (df.drop (i - L)).take L

/-- Last close of a window (window_df close iloc[-1]); 0 on the empty list. -/
def lastClose (w : List Bar) : ℚ := ((w.map Bar.close).getLast?).getD 0

/-- First close of a window (close iloc[0]); 0 on the empty list. -/
def firstClose (w : List Bar) : ℚ := (w.map Bar.close).getD 0 0

/-- Prices of the window bars flagged by the aligned extrema mask, in
chronological order (window_df[window_mask] then the price column). -/
def maskedPrices (w : List Bar) (mask : List Bool) (price : Bar → ℚ) : List ℚ :=
  ((w.zip mask).filter (fun p => p.2)).map (fun p => price p.1)

/-- Last n elements of a list (numpy values[-n:]). -/
def lastN (n : ℕ) (l : List α) : List α := l.drop (l.length - n)

/-- First index attaining the maximum of the list: the head of the
stable descending sort of the enumerated list used by the source. -/
def idxOfMaxFirst (l : List ℚ) : ℕ :=
  (List.range l.length).foldl
    (fun best i => if l.getD best 0 < l.getD i 0 then i else best) 0

/-- Window rule of detect_head_and_shoulders: at least three peaks, the
head (highest peak, earliest among ties) strictly inside, above each
shoulder by more than 2 percent, shoulders within 5 percent of the left
shoulder. -/
def hsWindowRule (w : List Bar) (wpeaks : List Bool) : ℕ :=
  let peakPrices := maskedPrices w wpeaks Bar.high
  if 3 ≤ peakPrices.length then
    let headIdx := idxOfMaxFirst peakPrices
    let headPrice := peakPrices.getD headIdx 0
    if 0 < headIdx ∧ headIdx < peakPrices.length - 1 then
      let ls := peakPrices.getD (headIdx - 1) 0
      let rs := peakPrices.getD (headIdx + 1) 0
      if ls * (102 / 100) < headPrice ∧ rs * (102 / 100) < headPrice ∧
          |ls - rs| / ls < 5 / 100 then 1 else 0
    else 0
  else 0

/-- detect_head_and_shoulders (lookback 60 at the call sites). -/
def detect_head_and_shoulders (df : List Bar) (lookback : ℕ) : List ℕ :=
  if df.length < lookback then List.replicate df.length 0
  else
    let peaks := (find_local_extrema df 5).1
    (List.range df.length).map fun i =>
      if i < lookback then 0
      else hsWindowRule (sliceW df i lookback) (sliceW peaks i lookback)

/-- Window rule of detect_rectangle: at least two touches within
tolerance of the window max high and of the window min low; the last
close strictly above the midpoint gives bullish, otherwise bearish. -/
def rectWindowRule (w : List Bar) (tol : ℚ) : ℕ × ℕ :=
  let highs := w.map Bar.high
  let lows := w.map Bar.low
  let resistance := maxOf highs
  let support := minOf lows
  let touchesRes := (highs.filter (fun h => resistance * (1 - tol) ≤ h)).length
  let touchesSup := (lows.filter (fun l => l ≤ support * (1 + tol))).length
  if 2 ≤ touchesRes ∧ 2 ≤ touchesSup then
    if (support + resistance) / 2 < lastClose w then (1, 0) else (0, 1)
  else (0, 0)

/-- Common loop skeleton of the pair-valued detectors that read only the
trailing window: series shorter than the lookback give all-zero output,
otherwise the window rule is evaluated at every position from lookback
on. -/
def windowMap (rule : List Bar → ℕ × ℕ) (lookback : ℕ) (df : List Bar) :
    List ℕ × List ℕ :=
  if df.length < lookback then
    (List.replicate df.length 0, List.replicate df.length 0)
  else
    let pairs := (List.range df.length).map fun i =>
      if i < lookback then (0, 0) else rule (sliceW df i lookback)
    (pairs.map (fun p => p.1), pairs.map (fun p => p.2))

/-- detect_rectangle (lookback 40, tolerance 0.02 at the call sites),
returning the bullish and bearish series. -/
def detect_rectangle (df : List Bar) (lookback : ℕ) (tol : ℚ) : List ℕ × List ℕ :=
  windowMap (fun w => rectWindowRule w tol) lookback df

/-- Triple top or bottom window rule: at least three flagged extrema and
the last three of their prices within 3 percent of their maximum. -/
def tripleWindowRule (w : List Bar) (mask : List Bool) (price : Bar → ℚ) : ℕ :=
  let prices := maskedPrices w mask price
  if 3 ≤ prices.length then
    let p3 := lastN 3 prices
    if (maxOf p3 - minOf p3) / maxOf p3 < 3 / 100 then 1 else 0
  else 0

/-- detect_triple_top_bottom (lookback 60 at the call sites). -/
def detect_triple_top_bottom (df : List Bar) (lookback : ℕ) : List ℕ × List ℕ :=
  if df.length < lookback then
    (List.replicate df.length 0, List.replicate df.length 0)
  else
    let em := find_local_extrema df 5
    let tops := (List.range df.length).map fun i =>
      if i < lookback then 0
      else tripleWindowRule (sliceW df i lookback) (sliceW em.1 i lookback) Bar.high
    let bottoms := (List.range df.length).map fun i =>
      if i < lookback then 0
      else tripleWindowRule (sliceW df i lookback) (sliceW em.2 i lookback) Bar.low
    (tops, bottoms)

/-- Double top or bottom window rule: at least two flagged extrema and
the last two of their prices within 2 percent of their maximum. -/
def doubleWindowRule (w : List Bar) (mask : List Bool) (price : Bar → ℚ) : ℕ :=
  let prices := maskedPrices w mask price
  if 2 ≤ prices.length then
    let p2 := lastN 2 prices
    if |p2.getD 0 0 - p2.getD 1 0| / maxOf p2 < 2 / 100 then 1 else 0
  else 0

/-- detect_double_top_bottom (lookback 50 at the call sites). -/
def detect_double_top_bottom (df : List Bar) (lookback : ℕ) : List ℕ × List ℕ :=
  if df.length < lookback then
    (List.replicate df.length 0, List.replicate df.length 0)
  else
    let em := find_local_extrema df 5
    let tops := (List.range df.length).map fun i =>
      if i < lookback then 0
      else doubleWindowRule (sliceW df i lookback) (sliceW em.1 i lookback) Bar.high
    let bottoms := (List.range df.length).map fun i =>
      if i < lookback then 0
      else doubleWindowRule (sliceW df i lookback) (sliceW em.2 i lookback) Bar.low
    (tops, bottoms)

/-- Least-squares slope of ys against 0, 1, ..., n - 1, the degree-one
coefficient of np.polyfit. -/
def polyfitSlope (ys : List ℚ) : ℚ :=
  let n : ℚ := (ys.length : ℚ)
  let xs := (List.range ys.length).map (fun i : ℕ => (i : ℚ))
  let sx := qsum xs
  let sy := qsum ys
  let sxy := qsum ((xs.zip ys).map (fun p => p.1 * p.2))
  let sxx := qsum (xs.map (fun x => x * x))
  (n * sxy - sx * sy) / (n * sxx - sx * sx)

/-- Window rule of detect_channels: both fitted slopes share a sign and
their relative gap is below 30 percent of the high-slope magnitude. -/
def channelsWindowRule (w : List Bar) : ℕ × ℕ :=
  let hs := polyfitSlope (w.map Bar.high)
  let ls := polyfitSlope (w.map Bar.low)
  ((if 0 < hs ∧ 0 < ls ∧ |hs - ls| / |hs| < 3 / 10 then 1 else 0),
   (if hs < 0 ∧ ls < 0 ∧ |hs - ls| / |hs| < 3 / 10 then 1 else 0))

/-- detect_channels (lookback 40 at the call sites). -/
def detect_channels (df : List Bar) (lookback : ℕ) : List ℕ × List ℕ :=
  windowMap channelsWindowRule lookback df

/-- Window rule of detect_triangles: ascending needs a flat resistance
slope (absolute value below 0.01) and a support slope above 0.01;
descending is the mirror image.  The 0.01 bounds are absolute. -/
def trianglesWindowRule (w : List Bar) : ℕ × ℕ :=
  let hs := polyfitSlope (w.map Bar.high)
  let ls := polyfitSlope (w.map Bar.low)
  ((if |hs| < 1 / 100 ∧ 1 / 100 < ls then 1 else 0),
   (if hs < -(1 / 100) ∧ |ls| < 1 / 100 then 1 else 0))

/-- detect_triangles (lookback 40 at the call sites). -/
def detect_triangles (df : List Bar) (lookback : ℕ) : List ℕ × List ℕ :=
  windowMap trianglesWindowRule lookback df

/-- Window rule of detect_flags: the window splits into a pole half and a
flag half; bull needs a pole trend above 5 percent with a flag trend in
(-5, 2) percent, bear the mirror image. -/
def flagsWindowRule (w : List Bar) (lookback : ℕ) : ℕ × ℕ :=
  let pole := w.take (lookback / 2)
  let flag := w.drop (lookback / 2)
  let poleTrend := (lastClose pole - firstClose pole) / firstClose pole
  let flagTrend := (lastClose flag - firstClose flag) / firstClose flag
  ((if 5 / 100 < poleTrend ∧ -(5 / 100) < flagTrend ∧ flagTrend < 2 / 100 then 1 else 0),
   (if poleTrend < -(5 / 100) ∧ -(2 / 100) < flagTrend ∧ flagTrend < 5 / 100 then 1 else 0))

/-- detect_flags (lookback 30 at the call sites). -/
def detect_flags (df : List Bar) (lookback : ℕ) : List ℕ × List ℕ :=
  windowMap (fun w => flagsWindowRule w lookback) lookback df

/-- The thirteen pattern columns, in the order the source assigns them
(identical in the short-series branch, the happy path, and the except
handler). -/
def patternColumnNames : List String :=
  ["head_and_shoulders_detected",
   "bullish_rectangle_detected", "bearish_rectangle_detected",
   "triple_top_detected", "triple_bottom_detected",
   "double_top_detected", "double_bottom_detected",
   "ascending_channel_detected", "descending_channel_detected",
   "ascending_triangle_detected", "descending_triangle_detected",
   "bull_flag_detected", "bear_flag_detected"]

/-- All thirteen pattern columns initialised to zero for a series of
length n (the short-series branch and the except handler of
calculate_all_chart_patterns). -/
def zeroPatternColumns (n : ℕ) : List (String × List ℕ) :=
  patternColumnNames.map (fun c => (c, List.replicate n 0))

/-- Result of calculate_all_chart_patterns: the input bars together with
the named detection columns added to the frame. -/
structure CalcResult where
  bars : List Bar
  cols : List (String × List ℕ)
deriving DecidableEq, Repr

/-- The classifier stage of calculate_all_chart_patterns: every detector
run with its source lookback, results stored under the source column
names in assignment order. -/
def classifierStage (df : List Bar) : List (String × List ℕ) :=
  [("head_and_shoulders_detected", detect_head_and_shoulders df 60),
   ("bullish_rectangle_detected", (detect_rectangle df 40 (2 / 100)).1),
   ("bearish_rectangle_detected", (detect_rectangle df 40 (2 / 100)).2),
   ("triple_top_detected", (detect_triple_top_bottom df 60).1),
   ("triple_bottom_detected", (detect_triple_top_bottom df 60).2),
   ("double_top_detected", (detect_double_top_bottom df 50).1),
   ("double_bottom_detected", (detect_double_top_bottom df 50).2),
   ("ascending_channel_detected", (detect_channels df 40).1),
   ("descending_channel_detected", (detect_channels df 40).2),
   ("ascending_triangle_detected", (detect_triangles df 40).1),
   ("descending_triangle_detected", (detect_triangles df 40).2),
   ("bull_flag_detected", (detect_flags df 30).1),
   ("bear_flag_detected", (detect_flags df 30).2)]

/-- The try and except structure of calculate_all_chart_patterns: a
successful classifier stage contributes its columns; any exception makes
the handler initialise every pattern column to zero instead. -/
def applyClassifierStage (df : List Bar) (stage : Except String (List (String × List ℕ))) :
    CalcResult :=
  match stage with
  | Except.ok cols => { bars := df, cols := cols }
  | Except.error _ => { bars := df, cols := zeroPatternColumns df.length }

/-- calculate_all_chart_patterns: series shorter than 40 bars get all
columns zero; otherwise the classifier stage runs under the exception
guard. -/
def calculate_all_chart_patterns (df : List Bar) : CalcResult :=
  if df.length < 40 then { bars := df, cols := zeroPatternColumns df.length }
  else applyClassifierStage df (Except.ok (classifierStage df))

/-- A persisted pattern event (PatternEvent of the data model). -/
structure PatternEvent where
  pattern_id : String
  stock_symbol : String
  pattern_type : String
  start_time : ℕ
  end_time : ℕ
  confidence : ℚ
deriving DecidableEq, Repr

/-- Pattern names with their lookback periods, in the iteration order of
chart_pattern_configs in calculate_patterns. -/
def chart_pattern_configs : List (String × ℕ) :=
  [("head_and_shoulders", 60),
   ("bullish_rectangle", 40), ("bearish_rectangle", 40),
   ("triple_top", 60), ("triple_bottom", 60),
   ("double_top", 50), ("double_bottom", 50),
   ("ascending_channel", 40), ("descending_channel", 40),
   ("ascending_triangle", 40), ("descending_triangle", 40),
   ("bull_flag", 30), ("bear_flag", 30)]

/-- Inner loop of calculate_patterns for one pattern column: one event
per bar whose detection value is 1, with end time at that bar, start
time lookback positions earlier clamped to the series start, and
constant confidence 1. -/
def patternEventsForColumn (symbol pname : String) (lookback : ℕ)
    (ts : List ℕ) (col : List ℕ) : List PatternEvent :=
  (List.range ts.length).filterMap fun i =>
    if col.getD i 0 = 1 then
      some { pattern_id := symbol ++ "_" ++ pname ++ "_" ++ toString (ts.getD i 0),
             stock_symbol := symbol,
             pattern_type := pname,
             start_time := ts.getD (max 0 ((i : ℤ) - (lookback : ℤ))).toNat 0,
             end_time := ts.getD i 0,
             confidence := 1 }
    else none

/-- Body of calculate_patterns given the outcome of the guarded chart
pattern computation: below 40 bars the list is empty; a failure of the
guarded stage leaves the accumulator empty; otherwise each configured
pattern contributes its events (a missing column is skipped). -/
def calculate_patterns_from (df : List Bar) (symbol : String)
    (chart : Except String CalcResult) : List PatternEvent :=
  if df.length < 40 then []
  else
    match chart with
    | Except.error _ => []
    | Except.ok res =>
      chart_pattern_configs.flatMap fun cfg =>
        match res.cols.lookup (cfg.1 ++ "_detected") with
        | none => []
        | some col => patternEventsForColumn symbol cfg.1 cfg.2 (res.bars.map Bar.ts) col

/-- calculate_patterns of ta_metrics.py. -/
def calculate_patterns (df : List Bar) (symbol : String) : List PatternEvent :=
  calculate_patterns_from df symbol (Except.ok (calculate_all_chart_patterns df))

/-- Scaling every price field of a bar by k (timestamps and volume are
not prices and stay put). -/
def scaleBar (k : ℚ) (b : Bar) : Bar :=
  { b with op := k * b.op, high := k * b.high, low := k * b.low, close := k * b.close }

/-- A bar with the given timestamp, high, low and close (open mirrors the
close, volume 0); used to build concrete test series. -/
def mkBar (i : ℕ) (h l c : ℚ) : Bar :=
  { ts := i, op := c, high := h, low := l, close := c, volume := 0 }

/-- A flat series of n bars whose high, low and close all equal c. -/
def flatSeries (n : ℕ) (c : ℚ) : List Bar :=
  (List.range n).map (fun i => mkBar i c c c)

/-- 3-bar series whose middle bar has a locally maximal high and a
locally minimal low at the same time. -/
def bothExtremaSeries : List Bar :=
  [mkBar 0 10 9 9, mkBar 1 20 1 10, mkBar 2 10 9 9]

/-- 41-bar series whose window highs have slope 1/200 (flat within the
0.01 triangle tolerance) and whose lows have slope 1/50 (rising). -/
def triangleSeries : List Bar :=
  (List.range 41).map (fun i =>
    mkBar i (100 + (i : ℚ) / 200) (90 + (i : ℚ) / 50) (95 + (i : ℚ) / 100))

/-- 55-bar series: two peaks of height 110 at bars 10 and 30 over a flat
base of 100, followed by four bars at 1000 from bar 51 on.  The trailing
bars blow up the global std used by the prominence filter. -/
def lookaheadSeries : List Bar :=
  (List.range 55).map (fun i =>
    let h : ℚ := if i = 10 ∨ i = 30 then 110 else if 51 ≤ i then 1000 else 100
    mkBar i h (h - 2) (h - 1))

/-- 41-bar series oscillating-free rectangle input: every high 102,
every low 98, every close 100 (the exact support and resistance
midpoint). -/
def midpointSeries : List Bar :=
  (List.range 41).map (fun i => mkBar i 102 98 100)

/-- midpointSeries with only bar 0 changed (its low dropped to 50):
bar 0 lies inside the code window for detection at bar 40 but outside
the window claimed by C4. -/
def midpointSeriesBar0 : List Bar :=
  mkBar 0 102 50 100 :: (List.range 40).map (fun j => mkBar (j + 1) 102 98 100)

/-- midpointSeries with only bar 40 changed (extreme prices): bar 40 is
inside the window claimed by C4 but outside the code window for
detection at bar 40. -/
def midpointSeriesBar40 : List Bar :=
  (List.range 40).map (fun i => mkBar i 102 98 100) ++ [mkBar 40 1000 1 1000]

/-- Short 25-bar series used to witness the length-floor behaviour. -/
def shortSeries : List Bar :=
  (List.range 25).map (fun i => mkBar i (100 + (i : ℚ)) (90 + (i : ℚ)) (95 + (i : ℚ)))

section Theorems

attribute [local semireducible] Rat.add Rat.mul Rat.inv Rat.sub

theorem getD_range_map (f : ℕ → α) {n i : ℕ} (d : α) (h : i < n) :
    ((List.range n).map f).getD i d = f i := by
  simp [List.getD_eq_getElem?_getD, List.getElem?_range h]

theorem getD_range_map_ge (f : ℕ → α) {n i : ℕ} (d : α) (h : n ≤ i) :
    ((List.range n).map f).getD i d = d :=
  List.getD_eq_default _ _ (by simpa using h)

theorem getD_replicate_cases (a d : α) (n i : ℕ) :
    (List.replicate n a).getD i d = if i < n then a else d := by
  simp [List.getD_eq_getElem?_getD, List.getElem?_replicate]
  split <;> simp

/-- Entries of a windowMap detector in the in-loop region are the rule
evaluated on the trailing window. -/
theorem windowMap_getD (rule : List Bar → ℕ × ℕ) (L : ℕ) (df : List Bar) (i : ℕ)
    (h1 : L ≤ i) (h2 : i < df.length) :
    (windowMap rule L df).1.getD i 0 = (rule (sliceW df i L)).1 ∧
    (windowMap rule L df).2.getD i 0 = (rule (sliceW df i L)).2 := by
  have hg : ¬ df.length < L := Nat.not_lt.2 (Nat.le_of_lt (Nat.lt_of_le_of_lt h1 h2))
  unfold windowMap
  rw [if_neg hg]
  constructor <;>
  · simp only [List.map_map]
    rw [getD_range_map _ _ h2]
    simp [Nat.not_lt.2 h1]

/-- Entries of a windowMap detector outside the in-loop region are 0. -/
theorem windowMap_getD_zero (rule : List Bar → ℕ × ℕ) (L : ℕ) (df : List Bar) (i : ℕ)
    (h : i < L ∨ df.length ≤ i) :
    (windowMap rule L df).1.getD i 0 = 0 ∧ (windowMap rule L df).2.getD i 0 = 0 := by
  unfold windowMap
  split
  · constructor <;> · rw [getD_replicate_cases]; split <;> rfl
  · rcases h with h | h
    · rcases Nat.lt_or_ge i df.length with h2 | h2
      · constructor <;>
        · simp only [List.map_map]
          rw [getD_range_map _ _ h2]
          simp [h]
      · constructor <;>
        · simp only [List.map_map]
          rw [getD_range_map_ge _ _ h2]
    · constructor <;>
      · simp only [List.map_map]
        rw [getD_range_map_ge _ _ h]

/-- The rectangle window rule takes one of exactly three values. -/
theorem rectWindowRule_cases (w : List Bar) (tol : ℚ) :
    rectWindowRule w tol = (1, 0) ∨ rectWindowRule w tol = (0, 1) ∨
    rectWindowRule w tol = (0, 0) := by
  unfold rectWindowRule
  dsimp only
  split
  · split
    · exact Or.inl rfl
    · exact Or.inr (Or.inl rfl)
  · exact Or.inr (Or.inr rfl)

/-- With both touch counts at least two and the last close exactly at
the support and resistance midpoint, the rectangle window rule flags
bearish. -/
theorem rectWindowRule_midpoint (w : List Bar) (tol : ℚ)
    (h1 : 2 ≤ ((w.map Bar.high).filter
      (fun h => maxOf (w.map Bar.high) * (1 - tol) ≤ h)).length)
    (h2 : 2 ≤ ((w.map Bar.low).filter
      (fun l => l ≤ minOf (w.map Bar.low) * (1 + tol))).length)
    (h3 : lastClose w = (minOf (w.map Bar.low) + maxOf (w.map Bar.high)) / 2) :
    rectWindowRule w tol = (0, 1) := by
  unfold rectWindowRule
  dsimp only
  rw [if_pos ⟨h1, h2⟩, if_neg]
  rw [h3]
  exact lt_irrefl _

/-- Claim C10: at every bar at most one of bullish_rectangle and
bearish_rectangle is flagged, and when the touch conditions hold with
the last window close exactly equal to the support and resistance
midpoint the bar is flagged bearish, not bullish. -/
theorem C10_rectangle_direction (df : List Bar) (L : ℕ) (tol : ℚ) (i : ℕ) :
    (¬ ((detect_rectangle df L tol).1.getD i 0 = 1 ∧
        (detect_rectangle df L tol).2.getD i 0 = 1)) ∧
    (L ≤ i → i < df.length →
      2 ≤ (((sliceW df i L).map Bar.high).filter
        (fun h => maxOf ((sliceW df i L).map Bar.high) * (1 - tol) ≤ h)).length →
      2 ≤ (((sliceW df i L).map Bar.low).filter
        (fun l => l ≤ minOf ((sliceW df i L).map Bar.low) * (1 + tol))).length →
      lastClose (sliceW df i L) =
        (minOf ((sliceW df i L).map Bar.low) + maxOf ((sliceW df i L).map Bar.high)) / 2 →
      (detect_rectangle df L tol).2.getD i 0 = 1 ∧
        (detect_rectangle df L tol).1.getD i 0 = 0) := by
  constructor
  · rcases Nat.lt_or_ge i L with hiL | hiL
    · have hz := windowMap_getD_zero (fun w => rectWindowRule w tol) L df i (Or.inl hiL)
      rw [detect_rectangle, hz.1]
      rintro ⟨h, -⟩
      exact absurd h (by decide)
    · rcases Nat.lt_or_ge i df.length with hlen | hlen
      · have hw := windowMap_getD (fun w => rectWindowRule w tol) L df i hiL hlen
        dsimp only at hw
        rw [detect_rectangle, hw.1, hw.2]
        rcases rectWindowRule_cases (sliceW df i L) tol with h | h | h <;>
          rw [h] <;> rintro ⟨h1, h2⟩ <;> simp at h1 h2
      · have hz := windowMap_getD_zero (fun w => rectWindowRule w tol) L df i (Or.inr hlen)
        rw [detect_rectangle, hz.1]
        rintro ⟨h, -⟩
        exact absurd h (by decide)
  · intro hiL hlen h1 h2 h3
    have hw := windowMap_getD (fun w => rectWindowRule w tol) L df i hiL hlen
    dsimp only at hw
    rw [detect_rectangle, hw.1, hw.2, rectWindowRule_midpoint _ _ h1 h2 h3]
    exact ⟨rfl, rfl⟩

set_option maxRecDepth 100000 in
/-- Witness for C10 at a concrete input: a 41-bar series with highs 102,
lows 98 and closes exactly at the midpoint 100 is flagged bearish and
not bullish at bar 40. -/
theorem C10_rectangle_direction_witness :
    (detect_rectangle midpointSeries 40 (2 / 100)).2.getD 40 0 = 1 ∧
    (detect_rectangle midpointSeries 40 (2 / 100)).1.getD 40 0 = 0 :=
  (C10_rectangle_direction midpointSeries 40 (2 / 100) 40).2
    (by decide) (by decide) (by decide) (by decide) (by decide)

/-- Claim C9: calculate_all_chart_patterns returns the input bars
unchanged (every OHLCV value and the row order are preserved) and the
added columns are exactly the thirteen pattern detection columns. -/
theorem C9_frame_preserved (df : List Bar) :
    (calculate_all_chart_patterns df).bars = df ∧
    (calculate_all_chart_patterns df).cols.map Prod.fst = patternColumnNames := by
  unfold calculate_all_chart_patterns applyClassifierStage
  split
  · exact ⟨rfl, rfl⟩
  · exact ⟨rfl, rfl⟩

/-- Claim C5: an exception anywhere in the classifier stage does not
propagate: the handler returns all thirteen pattern columns, each
all-zero, and calculate_patterns turns a failed stage into an empty
event list. -/
theorem C5_fail_soft (df : List Bar) (msg : String) (sym : String) :
    (applyClassifierStage df (Except.error msg)).bars = df ∧
    (applyClassifierStage df (Except.error msg)).cols.map Prod.fst = patternColumnNames ∧
    (∀ c ∈ (applyClassifierStage df (Except.error msg)).cols,
      c.2 = List.replicate df.length 0) ∧
    calculate_patterns_from df sym (Except.error msg) = [] := by
  refine ⟨rfl, rfl, ?_, ?_⟩
  · intro c hc
    simp only [applyClassifierStage, zeroPatternColumns, List.mem_map] at hc
    rcases hc with ⟨nm, -, rfl⟩
    rfl
  · unfold calculate_patterns_from
    split <;> rfl

/-- Claim C6: every detector returns an all-zero signal on a series
shorter than its lookback, and calculate_patterns returns an empty event
list on a series shorter than 40 bars. -/
theorem C6_length_floor (df : List Bar) (sym : String) :
    (df.length < 60 → detect_head_and_shoulders df 60 = List.replicate df.length 0) ∧
    (df.length < 40 → detect_rectangle df 40 (2 / 100) =
      (List.replicate df.length 0, List.replicate df.length 0)) ∧
    (df.length < 60 → detect_triple_top_bottom df 60 =
      (List.replicate df.length 0, List.replicate df.length 0)) ∧
    (df.length < 50 → detect_double_top_bottom df 50 =
      (List.replicate df.length 0, List.replicate df.length 0)) ∧
    (df.length < 40 → detect_channels df 40 =
      (List.replicate df.length 0, List.replicate df.length 0)) ∧
    (df.length < 40 → detect_triangles df 40 =
      (List.replicate df.length 0, List.replicate df.length 0)) ∧
    (df.length < 30 → detect_flags df 30 =
      (List.replicate df.length 0, List.replicate df.length 0)) ∧
    (df.length < 40 → calculate_patterns df sym = []) := by
  refine ⟨fun h => ?_, fun h => ?_, fun h => ?_, fun h => ?_, fun h => ?_,
    fun h => ?_, fun h => ?_, fun h => ?_⟩
  · rw [detect_head_and_shoulders, if_pos h]
  · rw [detect_rectangle, windowMap, if_pos h]
  · rw [detect_triple_top_bottom, if_pos h]
  · rw [detect_double_top_bottom, if_pos h]
  · rw [detect_channels, windowMap, if_pos h]
  · rw [detect_triangles, windowMap, if_pos h]
  · rw [detect_flags, windowMap, if_pos h]
  · rw [calculate_patterns, calculate_patterns_from, if_pos h]

/-- Witness for C6 at a concrete 25-bar series: all length bounds hold
and every output is the all-zero one. -/
theorem C6_length_floor_witness :
    shortSeries.length < 30 ∧
    detect_head_and_shoulders shortSeries 60 = List.replicate shortSeries.length 0 ∧
    detect_rectangle shortSeries 40 (2 / 100) =
      (List.replicate shortSeries.length 0, List.replicate shortSeries.length 0) ∧
    detect_triple_top_bottom shortSeries 60 =
      (List.replicate shortSeries.length 0, List.replicate shortSeries.length 0) ∧
    detect_double_top_bottom shortSeries 50 =
      (List.replicate shortSeries.length 0, List.replicate shortSeries.length 0) ∧
    detect_channels shortSeries 40 =
      (List.replicate shortSeries.length 0, List.replicate shortSeries.length 0) ∧
    detect_triangles shortSeries 40 =
      (List.replicate shortSeries.length 0, List.replicate shortSeries.length 0) ∧
    detect_flags shortSeries 30 =
      (List.replicate shortSeries.length 0, List.replicate shortSeries.length 0) ∧
    calculate_patterns shortSeries "AAPL" = [] :=
  ⟨by decide,
   (C6_length_floor shortSeries "AAPL").1 (by decide),
   (C6_length_floor shortSeries "AAPL").2.1 (by decide),
   (C6_length_floor shortSeries "AAPL").2.2.1 (by decide),
   (C6_length_floor shortSeries "AAPL").2.2.2.1 (by decide),
   (C6_length_floor shortSeries "AAPL").2.2.2.2.1 (by decide),
   (C6_length_floor shortSeries "AAPL").2.2.2.2.2.1 (by decide),
   (C6_length_floor shortSeries "AAPL").2.2.2.2.2.2.1 (by decide),
   (C6_length_floor shortSeries "AAPL").2.2.2.2.2.2.2 (by decide)⟩

theorem filterMap_if_eq_filter_map (l : List ℕ) (p : ℕ → Prop) [DecidablePred p]
    (f : ℕ → α) :
    (l.filterMap (fun i => if p i then some (f i) else none)) =
      (l.filter (fun i => decide (p i))).map f := by
  induction l with
  | nil => rfl
  | cons a t ih =>
    by_cases h : p a <;> simp [List.filterMap_cons, List.filter_cons, h, ih]

/-- Claim C7: the event extraction of calculate_patterns emits exactly
one PatternEvent per bar flagged 1, in bar order, with end_time at the
flagged bar, start_time at index max(0, end index - lookback), and
constant confidence 1; and for a full calculate_patterns run on a series
of at least 40 bars the events are exactly the per-column extractions
over the thirteen configured patterns. -/
theorem C7_one_event_per_flagged_bar (sym pname : String) (L : ℕ)
    (ts : List ℕ) (col : List ℕ) (df : List Bar) :
    (patternEventsForColumn sym pname L ts col =
      ((List.range ts.length).filter (fun i => decide (col.getD i 0 = 1))).map
        (fun i =>
          { pattern_id := sym ++ "_" ++ pname ++ "_" ++ toString (ts.getD i 0),
            stock_symbol := sym,
            pattern_type := pname,
            start_time := ts.getD (max 0 ((i : ℤ) - (L : ℤ))).toNat 0,
            end_time := ts.getD i 0,
            confidence := 1 })) ∧
    ((patternEventsForColumn sym pname L ts col).length =
      ((List.range ts.length).filter (fun i => decide (col.getD i 0 = 1))).length) ∧
    (40 ≤ df.length → calculate_patterns df sym =
      chart_pattern_configs.flatMap fun cfg =>
        match (calculate_all_chart_patterns df).cols.lookup (cfg.1 ++ "_detected") with
        | none => []
        | some c => patternEventsForColumn sym cfg.1 cfg.2 (df.map Bar.ts) c) := by
  have h := filterMap_if_eq_filter_map (List.range ts.length)
    (fun i => col.getD i 0 = 1)
    (fun i =>
      ({ pattern_id := sym ++ "_" ++ pname ++ "_" ++ toString (ts.getD i 0),
         stock_symbol := sym,
         pattern_type := pname,
         start_time := ts.getD (max 0 ((i : ℤ) - (L : ℤ))).toNat 0,
         end_time := ts.getD i 0,
         confidence := 1 } : PatternEvent))
  refine ⟨h, by rw [patternEventsForColumn, h, List.length_map], fun hlen => ?_⟩
  have hb : (calculate_all_chart_patterns df).bars = df := by
    rw [calculate_all_chart_patterns, if_neg (Nat.not_lt.2 hlen)]
    rfl
  rw [calculate_patterns, calculate_patterns_from, if_neg (Nat.not_lt.2 hlen), hb]

/-- Witness for the conditional part of C7 at a concrete 41-bar input. -/
theorem C7_one_event_per_flagged_bar_witness :
    40 ≤ midpointSeries.length ∧
    calculate_patterns midpointSeries "AAPL" =
      (chart_pattern_configs.flatMap fun cfg =>
        match (calculate_all_chart_patterns midpointSeries).cols.lookup
            (cfg.1 ++ "_detected") with
        | none => []
        | some c =>
          patternEventsForColumn "AAPL" cfg.1 cfg.2 (midpointSeries.map Bar.ts) c) :=
  ⟨by decide,
   (C7_one_event_per_flagged_bar "AAPL" "x" 0 [] [] midpointSeries).2.2 (by decide)⟩

/-- Counterexample to C8: in a 3-bar series whose middle bar has a
locally maximal high and a locally minimal low, find_local_extrema flags
bar 1 both as a peak and as a trough. -/
theorem C8_counterexample :
    (find_local_extrema bothExtremaSeries 5).1.getD 1 false = true ∧
    (find_local_extrema bothExtremaSeries 5).2.getD 1 false = true := by decide

set_option maxRecDepth 1000000 in
/-- Counterexample to C2: scaling every price of triangleSeries by the
positive constant 10 turns the ascending_triangle detection at bar 40
from 1 into 0, because the 0.01 slope thresholds of detect_triangles are
absolute, not relative. -/
theorem C2_counterexample :
    (detect_triangles triangleSeries 40).1.getD 40 0 = 1 ∧
    (detect_triangles (triangleSeries.map (scaleBar 10)) 40).1.getD 40 0 = 0 := by
  decide

set_option maxRecDepth 1000000 in
/-- Counterexample to C3: a flat 41-bar series at the constant price 100
is flagged bearish_rectangle at bar 40 (every bar touches both the
support and the resistance and the last close is not above the
midpoint), so not all thirteen outputs are zero. -/
theorem C3_counterexample :
    (((calculate_all_chart_patterns (flatSeries 41 100)).cols.lookup
      "bearish_rectangle_detected").getD []).getD 40 0 = 1 := by decide

set_option maxRecDepth 1000000 in
/-- Counterexample to C1: removing the bars after index 50 from
lookaheadSeries changes the double_top detection at bar 50 from 0 to 1.
The trailing bars at price 1000 inflate the global std that feeds the
prominence filter of find_local_extrema, so both 110-peaks are discarded
in the full series but kept in the truncated one. -/
theorem C1_counterexample :
    (((calculate_all_chart_patterns lookaheadSeries).cols.lookup
      "double_top_detected").getD []).getD 50 0 = 0 ∧
    (((calculate_all_chart_patterns (lookaheadSeries.take 51)).cols.lookup
      "double_top_detected").getD []).getD 50 0 = 1 := by decide

set_option maxRecDepth 1000000 in
/-- Counterexample to C4: midpointSeriesBar0 agrees with midpointSeries
on every bar of the window claimed by C4 for detection at bar 40 (bars 1
through 40) yet the bearish_rectangle detection at bar 40 differs, while
midpointSeriesBar40 changes only bar 40 itself (inside the claimed
window) and the detection at bar 40 is unchanged: the code window is
bars 0 through 39, exclusive of bar 40. -/
theorem C4_counterexample :
    List.drop 1 midpointSeriesBar0 = List.drop 1 midpointSeries ∧
    (detect_rectangle midpointSeries 40 (2 / 100)).2.getD 40 0 = 1 ∧
    (detect_rectangle midpointSeriesBar0 40 (2 / 100)).2.getD 40 0 = 0 ∧
    List.take 40 midpointSeriesBar40 = List.take 40 midpointSeries ∧
    (detect_rectangle midpointSeriesBar40 40 (2 / 100)).2.getD 40 0 = 1 := by
  decide

/-- Windows are unchanged by truncating the series right after the
current bar. -/
theorem sliceW_take (df : List α) (i L : ℕ) (hL : L ≤ i) :
    sliceW (df.take (i + 1)) i L = sliceW df i L := by
  unfold sliceW
  rw [List.drop_take, List.take_take]
  have h1 : i + 1 - (i - L) = L + 1 := by omega
  have h2 : min L (L + 1) = L := by omega
  rw [h1, h2]

/-- A windowMap detector value at bar i survives truncation of every bar
after i. -/
theorem windowMap_truncation (rule : List Bar → ℕ × ℕ) (L : ℕ) (df : List Bar)
    (i : ℕ) (h : i < df.length) :
    (windowMap rule L (df.take (i + 1))).1.getD i 0 =
      (windowMap rule L df).1.getD i 0 ∧
    (windowMap rule L (df.take (i + 1))).2.getD i 0 =
      (windowMap rule L df).2.getD i 0 := by
  rcases Nat.lt_or_ge i L with hiL | hiL
  · have hz1 := windowMap_getD_zero rule L (df.take (i + 1)) i (Or.inl hiL)
    have hz2 := windowMap_getD_zero rule L df i (Or.inl hiL)
    exact ⟨hz1.1.trans hz2.1.symm, hz1.2.trans hz2.2.symm⟩
  · have hlen : i < (df.take (i + 1)).length := by
      rw [List.length_take]
      omega
    have h1 := windowMap_getD rule L (df.take (i + 1)) i hiL hlen
    have h2 := windowMap_getD rule L df i hiL h
    rw [sliceW_take df i L hiL] at h1
    exact ⟨h1.1.trans h2.1.symm, h1.2.trans h2.2.symm⟩

/-- A windowMap detector value at bar i is a function of the trailing
window alone: two series of equal length with equal windows at i get
equal detection values at i. -/
theorem windowMap_local (rule : List Bar → ℕ × ℕ) (L : ℕ) (df₁ df₂ : List Bar)
    (i : ℕ) (hlen : df₁.length = df₂.length)
    (hsl : sliceW df₁ i L = sliceW df₂ i L) :
    (windowMap rule L df₁).1.getD i 0 = (windowMap rule L df₂).1.getD i 0 ∧
    (windowMap rule L df₁).2.getD i 0 = (windowMap rule L df₂).2.getD i 0 := by
  rcases Nat.lt_or_ge i L with hiL | hiL
  · have hz1 := windowMap_getD_zero rule L df₁ i (Or.inl hiL)
    have hz2 := windowMap_getD_zero rule L df₂ i (Or.inl hiL)
    exact ⟨hz1.1.trans hz2.1.symm, hz1.2.trans hz2.2.symm⟩
  · rcases Nat.lt_or_ge i df₁.length with hi | hi
    · have h1 := windowMap_getD rule L df₁ i hiL hi
      have h2 := windowMap_getD rule L df₂ i hiL (hlen ▸ hi)
      rw [hsl] at h1
      exact ⟨h1.1.trans h2.1.symm, h1.2.trans h2.2.symm⟩
    · have hz1 := windowMap_getD_zero rule L df₁ i (Or.inr hi)
      have hz2 := windowMap_getD_zero rule L df₂ i (Or.inr (hlen ▸ hi))
      exact ⟨hz1.1.trans hz2.1.symm, hz1.2.trans hz2.2.symm⟩

/-- Amended C1: truncation invariance holds for the classifiers that
read only their trailing window (rectangle, channels, triangles, flags);
the extrema-based classifiers are excluded because their prominence
threshold reads the whole series. -/
theorem C1_truncation_invariance_window_classifiers (df : List Bar) (i : ℕ)
    (h : i < df.length) :
    ((detect_rectangle (df.take (i + 1)) 40 (2 / 100)).1.getD i 0 =
      (detect_rectangle df 40 (2 / 100)).1.getD i 0) ∧
    ((detect_rectangle (df.take (i + 1)) 40 (2 / 100)).2.getD i 0 =
      (detect_rectangle df 40 (2 / 100)).2.getD i 0) ∧
    ((detect_channels (df.take (i + 1)) 40).1.getD i 0 =
      (detect_channels df 40).1.getD i 0) ∧
    ((detect_channels (df.take (i + 1)) 40).2.getD i 0 =
      (detect_channels df 40).2.getD i 0) ∧
    ((detect_triangles (df.take (i + 1)) 40).1.getD i 0 =
      (detect_triangles df 40).1.getD i 0) ∧
    ((detect_triangles (df.take (i + 1)) 40).2.getD i 0 =
      (detect_triangles df 40).2.getD i 0) ∧
    ((detect_flags (df.take (i + 1)) 30).1.getD i 0 =
      (detect_flags df 30).1.getD i 0) ∧
    ((detect_flags (df.take (i + 1)) 30).2.getD i 0 =
      (detect_flags df 30).2.getD i 0) := by
  have hr := windowMap_truncation (fun w => rectWindowRule w (2 / 100)) 40 df i h
  have hc := windowMap_truncation channelsWindowRule 40 df i h
  have ht := windowMap_truncation trianglesWindowRule 40 df i h
  have hf := windowMap_truncation (fun w => flagsWindowRule w 30) 30 df i h
  exact ⟨hr.1, hr.2, hc.1, hc.2, ht.1, ht.2, hf.1, hf.2⟩

set_option maxRecDepth 1000000 in
/-- Witness for the amended C1 at bar 45 of the 55-bar test series. -/
theorem C1_truncation_invariance_window_classifiers_witness :
    (detect_rectangle (lookaheadSeries.take 46) 40 (2 / 100)).1.getD 45 0 =
      (detect_rectangle lookaheadSeries 40 (2 / 100)).1.getD 45 0 ∧
    (detect_flags (lookaheadSeries.take 46) 30).2.getD 45 0 =
      (detect_flags lookaheadSeries 30).2.getD 45 0 :=
  ⟨(C1_truncation_invariance_window_classifiers lookaheadSeries 45 (by decide)).1,
   (C1_truncation_invariance_window_classifiers lookaheadSeries 45
    (by decide)).2.2.2.2.2.2.2⟩

/-- Amended C4: for the classifiers that read only their trailing
window, the detection value at bar i is a function of the lookback bars
ending at and excluding bar i (positions i - L through i - 1); in
particular changing only bar i can never change the detection value at
bar i for these classifiers. -/
theorem C4_window_excludes_current_bar (df₁ df₂ : List Bar) (i : ℕ)
    (hlen : df₁.length = df₂.length)
    (h40 : sliceW df₁ i 40 = sliceW df₂ i 40)
    (h30 : sliceW df₁ i 30 = sliceW df₂ i 30) :
    ((detect_rectangle df₁ 40 (2 / 100)).1.getD i 0 =
      (detect_rectangle df₂ 40 (2 / 100)).1.getD i 0) ∧
    ((detect_rectangle df₁ 40 (2 / 100)).2.getD i 0 =
      (detect_rectangle df₂ 40 (2 / 100)).2.getD i 0) ∧
    ((detect_channels df₁ 40).1.getD i 0 = (detect_channels df₂ 40).1.getD i 0) ∧
    ((detect_channels df₁ 40).2.getD i 0 = (detect_channels df₂ 40).2.getD i 0) ∧
    ((detect_triangles df₁ 40).1.getD i 0 = (detect_triangles df₂ 40).1.getD i 0) ∧
    ((detect_triangles df₁ 40).2.getD i 0 = (detect_triangles df₂ 40).2.getD i 0) ∧
    ((detect_flags df₁ 30).1.getD i 0 = (detect_flags df₂ 30).1.getD i 0) ∧
    ((detect_flags df₁ 30).2.getD i 0 = (detect_flags df₂ 30).2.getD i 0) := by
  have hr := windowMap_local (fun w => rectWindowRule w (2 / 100)) 40 df₁ df₂ i hlen h40
  have hc := windowMap_local channelsWindowRule 40 df₁ df₂ i hlen h40
  have ht := windowMap_local trianglesWindowRule 40 df₁ df₂ i hlen h40
  have hf := windowMap_local (fun w => flagsWindowRule w 30) 30 df₁ df₂ i hlen h30
  exact ⟨hr.1, hr.2, hc.1, hc.2, ht.1, ht.2, hf.1, hf.2⟩

set_option maxRecDepth 1000000 in
/-- Witness for the amended C4: midpointSeriesBar40 changes only bar 40
of midpointSeries, all eight window-classifier detections at bar 40
agree. -/
theorem C4_window_excludes_current_bar_witness :
    (detect_rectangle midpointSeries 40 (2 / 100)).2.getD 40 0 =
      (detect_rectangle midpointSeriesBar40 40 (2 / 100)).2.getD 40 0 ∧
    (detect_channels midpointSeries 40).1.getD 40 0 =
      (detect_channels midpointSeriesBar40 40).1.getD 40 0 :=
  ⟨(C4_window_excludes_current_bar midpointSeries midpointSeriesBar40 40
      (by decide) (by decide) (by decide)).2.1,
   (C4_window_excludes_current_bar midpointSeries midpointSeriesBar40 40
      (by decide) (by decide) (by decide)).2.2.1⟩

theorem qsum_shift (l : List ℚ) (x : ℚ) : l.foldl (· + ·) x = x + qsum l := by
  induction l generalizing x with
  | nil => simp [qsum]
  | cons a t ih =>
    rw [qsum, List.foldl_cons, List.foldl_cons, ih, ih (0 + a)]
    ring

theorem qsum_cons (a : ℚ) (l : List ℚ) : qsum (a :: l) = a + qsum l := by
  rw [qsum, List.foldl_cons, qsum_shift]
  ring_nf

theorem qsum_replicate (m : ℕ) (c : ℚ) : qsum (List.replicate m c) = m * c := by
  induction m with
  | zero => simp [qsum]
  | succ k ih =>
    rw [List.replicate_succ, qsum_cons, ih]
    push_cast
    ring

theorem qsum_map_mul_right (l : List ℚ) (c : ℚ) :
    qsum (l.map (fun x => x * c)) = qsum l * c := by
  induction l with
  | nil => simp [qsum]
  | cons a t ih =>
    rw [List.map_cons, qsum_cons, qsum_cons, ih]
    ring

theorem zip_replicate_right (xs : List α) (m : ℕ) (c : β) (h : xs.length = m) :
    xs.zip (List.replicate m c) = xs.map (fun x => (x, c)) := by
  induction xs generalizing m with
  | nil => simp
  | cons a t ih =>
    cases m with
    | zero => simp at h
    | succ k =>
      rw [List.replicate_succ, List.zip_cons_cons, List.map_cons,
        ih k (by simpa using h)]

theorem qsum_zip_mul_const (xs ys : List ℚ) (c : ℚ) (hlen : xs.length = ys.length)
    (h : ∀ y ∈ ys, y = c) :
    qsum ((xs.zip ys).map (fun p => p.1 * p.2)) = qsum xs * c := by
  induction xs generalizing ys with
  | nil => simp [qsum]
  | cons a t ih =>
    rcases ys with - | ⟨b, u⟩
    · simp at hlen
    · rw [List.zip_cons_cons, List.map_cons, qsum_cons, qsum_cons,
        ih u (by simpa using hlen) (fun y hy => h y (by simp [hy])),
        h b (by simp)]
      ring

/-- Least-squares slope of a constant sequence is zero. -/
theorem polyfitSlope_const (ys : List ℚ) (c : ℚ) (h : ∀ y ∈ ys, y = c) :
    polyfitSlope ys = 0 := by
  have hys : ys = List.replicate ys.length c := List.eq_replicate_length.mpr h
  have hsy : qsum ys = (ys.length : ℚ) * c := by
    conv_lhs => rw [hys]
    rw [qsum_replicate]
  have hxslen : ((List.range ys.length).map (fun i : ℕ => (i : ℚ))).length = ys.length := by
    rw [List.length_map, List.length_range]
  have hsxy := qsum_zip_mul_const ((List.range ys.length).map (fun i : ℕ => (i : ℚ)))
    ys c hxslen h
  unfold polyfitSlope
  dsimp only
  rw [hsy, hsxy]
  have hnum : (ys.length : ℚ) *
        (qsum ((List.range ys.length).map (fun i : ℕ => (i : ℚ))) * c) -
      qsum ((List.range ys.length).map (fun i : ℕ => (i : ℚ))) * ((ys.length : ℚ) * c) = 0 := by
    ring
  rw [hnum, zero_div]

theorem foldl_max_const (k : ℕ) (c : ℚ) :
    List.foldl max c (List.replicate k c) = c := by
  induction k with
  | zero => rfl
  | succ m ih => rw [List.replicate_succ, List.foldl_cons, max_self, ih]

theorem foldl_min_const (k : ℕ) (c : ℚ) :
    List.foldl min c (List.replicate k c) = c := by
  induction k with
  | zero => rfl
  | succ m ih => rw [List.replicate_succ, List.foldl_cons, min_self, ih]

theorem maxOf_const (l : List ℚ) (c : ℚ) (hne : l ≠ []) (h : ∀ y ∈ l, y = c) :
    maxOf l = c := by
  rcases l with - | ⟨a, t⟩
  · exact absurd rfl hne
  · have ha : a = c := h a (by simp)
    have ht : t = List.replicate t.length c :=
      List.eq_replicate_length.mpr (fun b hb => h b (by simp [hb]))
    rw [maxOf, ha]
    conv_lhs => rw [ht]
    exact foldl_max_const t.length c

theorem minOf_const (l : List ℚ) (c : ℚ) (hne : l ≠ []) (h : ∀ y ∈ l, y = c) :
    minOf l = c := by
  rcases l with - | ⟨a, t⟩
  · exact absurd rfl hne
  · have ha : a = c := h a (by simp)
    have ht : t = List.replicate t.length c :=
      List.eq_replicate_length.mpr (fun b hb => h b (by simp [hb]))
    rw [minOf, ha]
    conv_lhs => rw [ht]
    exact foldl_min_const t.length c

theorem lastClose_const (w : List Bar) (c : ℚ) (h : ∀ b ∈ w, b.close = c)
    (hne : w ≠ []) : lastClose w = c := by
  induction w with
  | nil => exact absurd rfl hne
  | cons b t ih =>
    rcases t with - | ⟨b2, t2⟩
    · simp [lastClose, h b (by simp)]
    · have : lastClose (b :: b2 :: t2) = lastClose (b2 :: t2) := by
        simp [lastClose]
      rw [this]
      exact ih (fun x hx => h x (List.mem_cons_of_mem b hx)) (by simp)

theorem firstClose_const (w : List Bar) (c : ℚ) (h : ∀ b ∈ w, b.close = c)
    (hne : w ≠ []) : firstClose w = c := by
  rcases w with - | ⟨b, t⟩
  · exact absurd rfl hne
  · simp [firstClose, h b (by simp)]

theorem maskOf_nil (n : ℕ) : maskOf n [] = List.replicate n false := by
  unfold maskOf
  have hfn : (fun i : ℕ => ([] : List ℕ).contains i) = fun _ : ℕ => false := rfl
  rw [hfn]
  induction n with
  | zero => rfl
  | succ k ih =>
    rw [List.range_succ, List.map_append, ih]
    exact (List.replicate_succ' k false).symm

/-- The local-maxima scan finds nothing in a constant sequence. -/
theorem localMaximaGo_const (x : List ℚ) (n : ℕ) (c : ℚ)
    (hx : ∀ j, j < n → x.getD j 0 = c) :
    ∀ fuel i, localMaximaGo x n i fuel = [] := by
  intro fuel
  induction fuel with
  | zero => intro i; rfl
  | succ f ih =>
    intro i
    by_cases hi : i < n - 1
    · have h1 : i < n := by omega
      have h2 : i - 1 < n := by omega
      rw [localMaximaGo, if_pos hi, hx i h1, hx (i - 1) h2, if_neg (lt_irrefl c),
        ih (i + 1)]
    · rw [localMaximaGo, if_neg hi]

theorem localMaxima_const (x : List ℚ) (c : ℚ) (h : ∀ y ∈ x, y = c) :
    localMaxima x = [] := by
  rw [localMaxima]
  refine localMaximaGo_const x x.length c ?_ x.length 1
  intro j hj
  rw [List.getD_eq_getElem _ _ hj]
  exact h _ (List.getElem_mem hj)

/-- find_local_extrema flags nothing on a series whose highs are all one
constant and whose lows are all one constant. -/
theorem find_local_extrema_const (df : List Bar) (ch cl : ℚ)
    (hh : ∀ b ∈ df, b.high = ch) (hl : ∀ b ∈ df, b.low = cl) :
    find_local_extrema df 5 =
      (List.replicate df.length false, List.replicate df.length false) := by
  have hmax1 : localMaxima (df.map Bar.high) = [] := by
    refine localMaxima_const _ ch ?_
    intro y hy
    rcases List.mem_map.1 hy with ⟨b, hb, rfl⟩
    exact hh b hb
  have hmax2 : localMaxima ((df.map Bar.low).map (fun v => -v)) = [] := by
    refine localMaxima_const _ (-cl) ?_
    intro y hy
    rcases List.mem_map.1 hy with ⟨z, hz, rfl⟩
    rcases List.mem_map.1 hz with ⟨b, hb, rfl⟩
    rw [hl b hb]
  simp only [find_local_extrema, findPeaksIdx, hmax1, hmax2, List.map_nil,
    List.zip_nil_left, List.filter_nil, maskOf_nil]

theorem maskedPrices_false (w : List Bar) (mask : List Bool) (price : Bar → ℚ)
    (hmask : ∀ m ∈ mask, m = false) : maskedPrices w mask price = [] := by
  unfold maskedPrices
  have hfil : (w.zip mask).filter (fun p => p.2) = [] := by
    refine List.filter_eq_nil_iff.2 ?_
    intro p hp
    have h2 := (List.of_mem_zip hp).2
    simp [hmask _ h2]
  rw [hfil, List.map_nil]

theorem hsWindowRule_nomask (w : List Bar) (mask : List Bool)
    (hmask : ∀ m ∈ mask, m = false) : hsWindowRule w mask = 0 := by
  unfold hsWindowRule
  rw [maskedPrices_false w mask Bar.high hmask]
  rfl

theorem tripleWindowRule_nomask (w : List Bar) (mask : List Bool) (price : Bar → ℚ)
    (hmask : ∀ m ∈ mask, m = false) : tripleWindowRule w mask price = 0 := by
  unfold tripleWindowRule
  rw [maskedPrices_false w mask price hmask]
  rfl

theorem doubleWindowRule_nomask (w : List Bar) (mask : List Bool) (price : Bar → ℚ)
    (hmask : ∀ m ∈ mask, m = false) : doubleWindowRule w mask price = 0 := by
  unfold doubleWindowRule
  rw [maskedPrices_false w mask price hmask]
  rfl

theorem channelsWindowRule_const (w : List Bar) (ch cl : ℚ)
    (hh : ∀ b ∈ w, b.high = ch) (hl : ∀ b ∈ w, b.low = cl) :
    channelsWindowRule w = (0, 0) := by
  have h1 : polyfitSlope (w.map Bar.high) = 0 := by
    refine polyfitSlope_const _ ch ?_
    intro y hy
    rcases List.mem_map.1 hy with ⟨b, hb, rfl⟩
    exact hh b hb
  have h2 : polyfitSlope (w.map Bar.low) = 0 := by
    refine polyfitSlope_const _ cl ?_
    intro y hy
    rcases List.mem_map.1 hy with ⟨b, hb, rfl⟩
    exact hl b hb
  unfold channelsWindowRule
  dsimp only
  rw [h1, h2]
  norm_num

theorem trianglesWindowRule_const (w : List Bar) (ch cl : ℚ)
    (hh : ∀ b ∈ w, b.high = ch) (hl : ∀ b ∈ w, b.low = cl) :
    trianglesWindowRule w = (0, 0) := by
  have h1 : polyfitSlope (w.map Bar.high) = 0 := by
    refine polyfitSlope_const _ ch ?_
    intro y hy
    rcases List.mem_map.1 hy with ⟨b, hb, rfl⟩
    exact hh b hb
  have h2 : polyfitSlope (w.map Bar.low) = 0 := by
    refine polyfitSlope_const _ cl ?_
    intro y hy
    rcases List.mem_map.1 hy with ⟨b, hb, rfl⟩
    exact hl b hb
  unfold trianglesWindowRule
  dsimp only
  rw [h1, h2]
  norm_num

theorem flagsWindowRule_const (w : List Bar) (c : ℚ) (L : ℕ)
    (h : ∀ b ∈ w, b.close = c) : flagsWindowRule w L = (0, 0) := by
  have hpole : (lastClose (w.take (L / 2)) - firstClose (w.take (L / 2))) /
      firstClose (w.take (L / 2)) = 0 := by
    by_cases hp : w.take (L / 2) = []
    · rw [hp]
      norm_num [lastClose, firstClose]
    · rw [lastClose_const _ c (fun b hb => h b (List.take_subset _ _ hb)) hp,
        firstClose_const _ c (fun b hb => h b (List.take_subset _ _ hb)) hp,
        sub_self, zero_div]
  have hflag : (lastClose (w.drop (L / 2)) - firstClose (w.drop (L / 2))) /
      firstClose (w.drop (L / 2)) = 0 := by
    by_cases hp : w.drop (L / 2) = []
    · rw [hp]
      norm_num [lastClose, firstClose]
    · rw [lastClose_const _ c (fun b hb => h b (List.drop_subset _ _ hb)) hp,
        firstClose_const _ c (fun b hb => h b (List.drop_subset _ _ hb)) hp,
        sub_self, zero_div]
  unfold flagsWindowRule
  dsimp only
  rw [hpole, hflag]
  norm_num

theorem rectWindowRule_flat_fst (w : List Bar) (c tol : ℚ)
    (hh : ∀ b ∈ w, b.high = c) (hl : ∀ b ∈ w, b.low = c)
    (hcl : ∀ b ∈ w, b.close = c) : (rectWindowRule w tol).1 = 0 := by
  by_cases hw : w = []
  · subst hw
    rfl
  · have hmw : w.map Bar.high ≠ [] := by simpa using hw
    have hlw : w.map Bar.low ≠ [] := by simpa using hw
    have hres : maxOf (w.map Bar.high) = c := by
      refine maxOf_const _ c hmw ?_
      intro y hy
      rcases List.mem_map.1 hy with ⟨b, hb, rfl⟩
      exact hh b hb
    have hsup : minOf (w.map Bar.low) = c := by
      refine minOf_const _ c hlw ?_
      intro y hy
      rcases List.mem_map.1 hy with ⟨b, hb, rfl⟩
      exact hl b hb
    have hlast : lastClose w = c := lastClose_const w c hcl hw
    unfold rectWindowRule
    dsimp only
    rw [hres, hsup, hlast]
    split
    · rw [if_neg]
      rw [add_self_div_two]
      exact lt_irrefl c
    · rfl

theorem rectWindowRule_flat_snd (w : List Bar) (c : ℚ) (hc : 0 ≤ c)
    (hlen2 : 2 ≤ w.length)
    (hh : ∀ b ∈ w, b.high = c) (hl : ∀ b ∈ w, b.low = c)
    (hcl : ∀ b ∈ w, b.close = c) : (rectWindowRule w (2 / 100)).2 = 1 := by
  have hw : w ≠ [] := by
    intro hww
    rw [hww] at hlen2
    simp at hlen2
  have hmw : w.map Bar.high ≠ [] := by simpa using hw
  have hlw : w.map Bar.low ≠ [] := by simpa using hw
  have hres : maxOf (w.map Bar.high) = c := by
    refine maxOf_const _ c hmw ?_
    intro y hy
    rcases List.mem_map.1 hy with ⟨b, hb, rfl⟩
    exact hh b hb
  have hsup : minOf (w.map Bar.low) = c := by
    refine minOf_const _ c hlw ?_
    intro y hy
    rcases List.mem_map.1 hy with ⟨b, hb, rfl⟩
    exact hl b hb
  have hlast : lastClose w = c := lastClose_const w c hcl hw
  have hrephi : w.map Bar.high = List.replicate w.length c := by
    have : w.map Bar.high = List.replicate (w.map Bar.high).length c :=
      List.eq_replicate_length.mpr (by
        intro y hy
        rcases List.mem_map.1 hy with ⟨b, hb, rfl⟩
        exact hh b hb)
    rwa [List.length_map] at this
  have hreplo : w.map Bar.low = List.replicate w.length c := by
    have : w.map Bar.low = List.replicate (w.map Bar.low).length c :=
      List.eq_replicate_length.mpr (by
        intro y hy
        rcases List.mem_map.1 hy with ⟨b, hb, rfl⟩
        exact hl b hb)
    rwa [List.length_map] at this
  have htr : ((w.map Bar.high).filter
      (fun h => decide (maxOf (w.map Bar.high) * (1 - 2 / 100) ≤ h))).length = w.length := by
    rw [hres, hrephi, List.filter_replicate_of_pos, List.length_replicate]
    refine decide_eq_true ?_
    nlinarith
  have hts : ((w.map Bar.low).filter
      (fun l => decide (l ≤ minOf (w.map Bar.low) * (1 + 2 / 100)))).length = w.length := by
    rw [hsup, hreplo, List.filter_replicate_of_pos, List.length_replicate]
    refine decide_eq_true ?_
    nlinarith
  unfold rectWindowRule
  dsimp only
  rw [htr, hts, if_pos ⟨hlen2, hlen2⟩, hres, hsup, hlast, if_neg]
  rw [add_self_div_two]
  exact lt_irrefl c

theorem range_map_eq_replicate {α : Type} {f : ℕ → α} {n : ℕ} (a : α)
    (h : ∀ i, i < n → f i = a) :
    (List.range n).map f = List.replicate n a := by
  have hlen : ((List.range n).map f).length = n := by simp
  conv_rhs => rw [← hlen]
  refine List.eq_replicate_length.mpr ?_
  intro b hb
  rcases List.mem_map.1 hb with ⟨i, hi, rfl⟩
  exact h i (List.mem_range.1 hi)

theorem sliceW_subset (df : List α) (i L : ℕ) : sliceW df i L ⊆ df :=
  fun _ ha => List.drop_subset _ _ (List.take_subset _ _ ha)

theorem sliceW_length (df : List α) (i L : ℕ) (h1 : L ≤ i) (h2 : i < df.length) :
    (sliceW df i L).length = L := by
  unfold sliceW
  rw [List.length_take, List.length_drop]
  omega

theorem windowMap_fst_all_zero (rule : List Bar → ℕ × ℕ) (L : ℕ) (df : List Bar)
    (hrule : ∀ i, L ≤ i → i < df.length → (rule (sliceW df i L)).1 = 0) :
    (windowMap rule L df).1 = List.replicate df.length 0 := by
  unfold windowMap
  split
  · rfl
  · dsimp only
    rw [List.map_map]
    refine range_map_eq_replicate 0 ?_
    intro i hi
    by_cases hiL : i < L
    · simp [hiL]
    · simp only [Function.comp_apply, if_neg hiL]
      exact hrule i (Nat.le_of_not_lt hiL) hi

theorem windowMap_snd_all_zero (rule : List Bar → ℕ × ℕ) (L : ℕ) (df : List Bar)
    (hrule : ∀ i, L ≤ i → i < df.length → (rule (sliceW df i L)).2 = 0) :
    (windowMap rule L df).2 = List.replicate df.length 0 := by
  unfold windowMap
  split
  · rfl
  · dsimp only
    rw [List.map_map]
    refine range_map_eq_replicate 0 ?_
    intro i hi
    by_cases hiL : i < L
    · simp [hiL]
    · simp only [Function.comp_apply, if_neg hiL]
      exact hrule i (Nat.le_of_not_lt hiL) hi

/-- Amended C3: on a flat series at one constant positive price, twelve
of the thirteen detection outputs are all-zero at every bar, but
bearish_rectangle fires at every bar of index at least 40 (every window
bar touches both the degenerate support and resistance, and the last
close is not strictly above the midpoint). -/
theorem C3_flat_series_amended (df : List Bar) (c : ℚ) (hc : 0 < c)
    (hfl : ∀ b ∈ df, b.high = c ∧ b.low = c ∧ b.close = c) :
    detect_head_and_shoulders df 60 = List.replicate df.length 0 ∧
    (detect_rectangle df 40 (2 / 100)).1 = List.replicate df.length 0 ∧
    (detect_triple_top_bottom df 60).1 = List.replicate df.length 0 ∧
    (detect_triple_top_bottom df 60).2 = List.replicate df.length 0 ∧
    (detect_double_top_bottom df 50).1 = List.replicate df.length 0 ∧
    (detect_double_top_bottom df 50).2 = List.replicate df.length 0 ∧
    (detect_channels df 40).1 = List.replicate df.length 0 ∧
    (detect_channels df 40).2 = List.replicate df.length 0 ∧
    (detect_triangles df 40).1 = List.replicate df.length 0 ∧
    (detect_triangles df 40).2 = List.replicate df.length 0 ∧
    (detect_flags df 30).1 = List.replicate df.length 0 ∧
    (detect_flags df 30).2 = List.replicate df.length 0 ∧
    (detect_rectangle df 40 (2 / 100)).2 =
      (List.range df.length).map (fun i => if i < 40 then 0 else 1) := by
  have hh : ∀ b ∈ df, b.high = c := fun b hb => (hfl b hb).1
  have hl : ∀ b ∈ df, b.low = c := fun b hb => (hfl b hb).2.1
  have hcl : ∀ b ∈ df, b.close = c := fun b hb => (hfl b hb).2.2
  have hwh : ∀ i L, ∀ b ∈ sliceW df i L, b.high = c :=
    fun i L b hb => hh b (sliceW_subset df i L hb)
  have hwl : ∀ i L, ∀ b ∈ sliceW df i L, b.low = c :=
    fun i L b hb => hl b (sliceW_subset df i L hb)
  have hwc : ∀ i L, ∀ b ∈ sliceW df i L, b.close = c :=
    fun i L b hb => hcl b (sliceW_subset df i L hb)
  have hext := find_local_extrema_const df c c hh hl
  have hmask1 : ∀ i L, ∀ m ∈ sliceW (find_local_extrema df 5).1 i L, m = false := by
    intro i L m hm
    have := sliceW_subset (find_local_extrema df 5).1 i L hm
    rw [hext] at this
    exact List.eq_of_mem_replicate this
  have hmask2 : ∀ i L, ∀ m ∈ sliceW (find_local_extrema df 5).2 i L, m = false := by
    intro i L m hm
    have := sliceW_subset (find_local_extrema df 5).2 i L hm
    rw [hext] at this
    exact List.eq_of_mem_replicate this
  refine ⟨?_, ?_, ?_, ?_, ?_, ?_, ?_, ?_, ?_, ?_, ?_, ?_, ?_⟩
  · rw [detect_head_and_shoulders]
    split
    · rfl
    · refine range_map_eq_replicate 0 ?_
      intro i hi
      by_cases hiL : i < 60
      · rw [if_pos hiL]
      · rw [if_neg hiL]
        exact hsWindowRule_nomask _ _ (hmask1 i 60)
  · rw [detect_rectangle]
    refine windowMap_fst_all_zero _ _ _ ?_
    intro i h1 h2
    exact rectWindowRule_flat_fst _ c _ (hwh i 40) (hwl i 40) (hwc i 40)
  · rw [detect_triple_top_bottom]
    split
    · rfl
    · refine range_map_eq_replicate 0 ?_
      intro i hi
      by_cases hiL : i < 60
      · rw [if_pos hiL]
      · rw [if_neg hiL]
        exact tripleWindowRule_nomask _ _ _ (hmask1 i 60)
  · rw [detect_triple_top_bottom]
    split
    · rfl
    · refine range_map_eq_replicate 0 ?_
      intro i hi
      by_cases hiL : i < 60
      · rw [if_pos hiL]
      · rw [if_neg hiL]
        exact tripleWindowRule_nomask _ _ _ (hmask2 i 60)
  · rw [detect_double_top_bottom]
    split
    · rfl
    · refine range_map_eq_replicate 0 ?_
      intro i hi
      by_cases hiL : i < 50
      · rw [if_pos hiL]
      · rw [if_neg hiL]
        exact doubleWindowRule_nomask _ _ _ (hmask1 i 50)
  · rw [detect_double_top_bottom]
    split
    · rfl
    · refine range_map_eq_replicate 0 ?_
      intro i hi
      by_cases hiL : i < 50
      · rw [if_pos hiL]
      · rw [if_neg hiL]
        exact doubleWindowRule_nomask _ _ _ (hmask2 i 50)
  · rw [detect_channels]
    refine windowMap_fst_all_zero _ _ _ ?_
    intro i h1 h2
    rw [channelsWindowRule_const _ c c (hwh i 40) (hwl i 40)]
  · rw [detect_channels]
    refine windowMap_snd_all_zero _ _ _ ?_
    intro i h1 h2
    rw [channelsWindowRule_const _ c c (hwh i 40) (hwl i 40)]
  · rw [detect_triangles]
    refine windowMap_fst_all_zero _ _ _ ?_
    intro i h1 h2
    rw [trianglesWindowRule_const _ c c (hwh i 40) (hwl i 40)]
  · rw [detect_triangles]
    refine windowMap_snd_all_zero _ _ _ ?_
    intro i h1 h2
    rw [trianglesWindowRule_const _ c c (hwh i 40) (hwl i 40)]
  · rw [detect_flags]
    refine windowMap_fst_all_zero _ _ _ ?_
    intro i h1 h2
    rw [flagsWindowRule_const _ c _ (hwc i 30)]
  · rw [detect_flags]
    refine windowMap_snd_all_zero _ _ _ ?_
    intro i h1 h2
    rw [flagsWindowRule_const _ c _ (hwc i 30)]
  · rw [detect_rectangle, windowMap]
    split
    · next hn =>
      refine ((range_map_eq_replicate 0 ?_).trans rfl).symm
      intro i hi
      rw [if_pos (by omega)]
    · next hn =>
      dsimp only
      rw [List.map_map]
      refine List.map_congr_left ?_
      intro i hi
      have hin := List.mem_range.1 hi
      by_cases hiL : i < 40
      · simp [hiL]
      · simp only [Function.comp_apply, if_neg hiL]
        refine rectWindowRule_flat_snd _ c hc.le ?_ (hwh i 40) (hwl i 40) (hwc i 40)
        rw [sliceW_length df i 40 (Nat.le_of_not_lt hiL) hin]
        omega

set_option maxRecDepth 1000000 in
/-- Witness for the amended C3 at a flat 45-bar series of price 100. -/
theorem C3_flat_series_amended_witness :
    detect_head_and_shoulders (flatSeries 45 100) 60 =
      List.replicate (flatSeries 45 100).length 0 ∧
    (detect_rectangle (flatSeries 45 100) 40 (2 / 100)).2 =
      (List.range (flatSeries 45 100).length).map (fun i => if i < 40 then 0 else 1) :=
  ⟨(C3_flat_series_amended (flatSeries 45 100) 100 (by decide) (by decide)).1,
   (C3_flat_series_amended (flatSeries 45 100) 100 (by decide)
     (by decide)).2.2.2.2.2.2.2.2.2.2.2.2⟩

theorem getD_map_neg (x : List ℚ) (m : ℕ) :
    (x.map (fun v => -v)).getD m 0 = -(x.getD m 0) := by
  rcases Nat.lt_or_ge m x.length with h | h
  · rw [List.getD_eq_getElem _ _ (by simpa using h), List.getD_eq_getElem _ _ h,
      List.getElem_map]
  · rw [List.getD_eq_default _ _ (by simpa using h), List.getD_eq_default _ _ h,
      neg_zero]

/-- Specification of the plateau scan: the result is at least the start,
everything strictly between start and result sits on the plateau, and
the scan stops only at the plateau end or at imax. -/
theorem aheadGo_spec (x : List ℚ) (v : ℚ) (imax : ℕ) :
    ∀ fuel j, imax - j ≤ fuel →
      j ≤ aheadGo x v imax j fuel ∧
      (∀ m, j ≤ m → m < aheadGo x v imax j fuel → m < imax ∧ x.getD m 0 = v) ∧
      ¬(aheadGo x v imax j fuel < imax ∧
        x.getD (aheadGo x v imax j fuel) 0 = v) := by
  intro fuel
  induction fuel with
  | zero =>
    intro j hj
    rw [aheadGo]
    refine ⟨le_refl j, fun m hm1 hm2 => absurd (Nat.lt_of_le_of_lt hm1 hm2)
      (lt_irrefl j), ?_⟩
    rintro ⟨hlt, -⟩
    omega
  | succ f ih =>
    intro j hj
    rw [aheadGo]
    by_cases hcond : j < imax ∧ x.getD j 0 = v
    · rw [if_pos hcond]
      obtain ⟨ha1, ha2, ha3⟩ := ih (j + 1) (by omega)
      refine ⟨by omega, ?_, ha3⟩
      intro m hm1 hm2
      rcases Nat.eq_or_lt_of_le hm1 with rfl | hm1
      · exact hcond
      · exact ha2 m hm1 hm2
    · rw [if_neg hcond]
      exact ⟨le_refl j, fun m hm1 hm2 => absurd (Nat.lt_of_le_of_lt hm1 hm2)
        (lt_irrefl j), hcond⟩

/-- Every recorded local maximum is the midpoint of a maximal plateau
that strictly rises on its left and strictly falls on its right. -/
theorem localMaximaGo_mem (x : List ℚ) (n : ℕ) :
    ∀ fuel i j, 1 ≤ i → j ∈ localMaximaGo x n i fuel →
      ∃ l r, l ≤ r ∧ 1 ≤ l ∧
        (∀ m, l ≤ m → m ≤ r → x.getD m 0 = x.getD l 0) ∧
        x.getD (l - 1) 0 < x.getD l 0 ∧
        x.getD (r + 1) 0 < x.getD l 0 ∧
        j = (l + r) / 2 := by
  intro fuel
  induction fuel with
  | zero =>
    intro i j hi hj
    exact absurd hj (List.not_mem_nil j)
  | succ f ih =>
    intro i j hi hj
    rw [localMaximaGo] at hj
    by_cases h1 : i < n - 1
    · rw [if_pos h1] at hj
      by_cases h2 : x.getD (i - 1) 0 < x.getD i 0
      · rw [if_pos h2] at hj
        dsimp only at hj
        by_cases h3 : x.getD (aheadGo x (x.getD i 0) (n - 1) (i + 1) n) 0 <
            x.getD i 0
        · rw [if_pos h3] at hj
          rcases List.mem_cons.1 hj with rfl | hj2
          · obtain ⟨ha1, ha2, -⟩ :=
              aheadGo_spec x (x.getD i 0) (n - 1) n (i + 1) (by omega)
            refine ⟨i, aheadGo x (x.getD i 0) (n - 1) (i + 1) n - 1,
              by omega, hi, ?_, h2, ?_, rfl⟩
            · intro m hm1 hm2
              rcases Nat.eq_or_lt_of_le hm1 with rfl | hm1
              · rfl
              · exact (ha2 m hm1 (by omega)).2
            · have hia : aheadGo x (x.getD i 0) (n - 1) (i + 1) n - 1 + 1 =
                  aheadGo x (x.getD i 0) (n - 1) (i + 1) n := by omega
              rw [hia]
              exact h3
          · exact ih _ j (by omega) hj2
        · rw [if_neg h3] at hj
          exact ih _ j (by omega) hj
      · rw [if_neg h2] at hj
        exact ih _ j (by omega) hj
    · rw [if_neg h1] at hj
      exact absurd hj (List.not_mem_nil j)

theorem localMaxima_mem (x : List ℚ) (j : ℕ) (hj : j ∈ localMaxima x) :
    ∃ l r, l ≤ r ∧ 1 ≤ l ∧
      (∀ m, l ≤ m → m ≤ r → x.getD m 0 = x.getD l 0) ∧
      x.getD (l - 1) 0 < x.getD l 0 ∧
      x.getD (r + 1) 0 < x.getD l 0 ∧
      j = (l + r) / 2 :=
  localMaximaGo_mem x x.length x.length 1 j (le_refl 1) hj

/-- No index is simultaneously a local maximum of a sequence and of its
negation: the two maximal plateaus through the index would coincide, and
the left border cannot strictly rise and strictly fall at once. -/
theorem localMaxima_disjoint (x : List ℚ) (j : ℕ) (h1 : j ∈ localMaxima x)
    (h2 : j ∈ localMaxima (x.map (fun v => -v))) : False := by
  obtain ⟨l, r, hlr, hl1, hplat, hleft, hright, hj⟩ := localMaxima_mem x j h1
  obtain ⟨l2, r2, hlr2, hl21, hplat2n, hleft2n, hright2n, hj2⟩ :=
    localMaxima_mem _ j h2
  have hplat2 : ∀ m, l2 ≤ m → m ≤ r2 → x.getD m 0 = x.getD l2 0 := by
    intro m hm1 hm2
    have := hplat2n m hm1 hm2
    rw [getD_map_neg, getD_map_neg] at this
    exact neg_injective this
  have hleft2 : x.getD l2 0 < x.getD (l2 - 1) 0 := by
    have := hleft2n
    rw [getD_map_neg, getD_map_neg] at this
    exact neg_lt_neg_iff.1 this
  have hjl : l ≤ j ∧ j ≤ r := by omega
  have hjl2 : l2 ≤ j ∧ j ≤ r2 := by omega
  rcases lt_trichotomy l l2 with hc | hc | hc
  · have e1 : x.getD (l2 - 1) 0 = x.getD l 0 := hplat _ (by omega) (by omega)
    have e2 : x.getD l2 0 = x.getD l 0 := hplat _ (by omega) (by omega)
    rw [e1, e2] at hleft2
    exact absurd hleft2 (lt_irrefl _)
  · subst hc
    exact absurd hleft (not_lt_of_gt hleft2)
  · have e1 : x.getD (l - 1) 0 = x.getD l2 0 := hplat2 _ (by omega) (by omega)
    have e2 : x.getD l 0 = x.getD l2 0 := hplat2 _ (by omega) (by omega)
    rw [e1, e2] at hleft
    exact absurd hleft (lt_irrefl _)

theorem findPeaksIdx_subset (x : List ℚ) (d : ℕ) (v : ℚ) (p : ℕ)
    (hp : p ∈ findPeaksIdx x d v) : p ∈ localMaxima x := by
  unfold findPeaksIdx at hp
  dsimp only at hp
  have h1 := (List.mem_filter.1 hp).1
  rcases List.mem_map.1 h1 with ⟨pk, hpk, rfl⟩
  have h2 := (List.mem_filter.1 hpk).1
  exact (List.of_mem_zip h2).1

theorem maskOf_getD_true (n : ℕ) (idxs : List ℕ) (i : ℕ)
    (h : (maskOf n idxs).getD i false = true) : i ∈ idxs := by
  unfold maskOf at h
  rcases Nat.lt_or_ge i n with hi | hi
  · rw [getD_range_map _ _ hi] at h
    simpa using h
  · rw [getD_range_map_ge _ _ hi] at h
    exact absurd h (by simp)

/-- Amended C8: a bar can carry both flags in general (the peak mask is
computed from the highs and the trough mask from the lows,
independently); when every bar has equal high and low the two masks are
disjoint. -/
theorem C8_masks_disjoint_when_high_eq_low (df : List Bar) (i : ℕ)
    (hfl : ∀ b ∈ df, b.high = b.low) :
    ¬((find_local_extrema df 5).1.getD i false = true ∧
      (find_local_extrema df 5).2.getD i false = true) := by
  rintro ⟨hp, ht⟩
  unfold find_local_extrema at hp ht
  dsimp only at hp ht
  have hpm := findPeaksIdx_subset _ _ _ _ (maskOf_getD_true _ _ _ hp)
  have htm := findPeaksIdx_subset _ _ _ _ (maskOf_getD_true _ _ _ ht)
  have heq : df.map Bar.low = df.map Bar.high :=
    List.map_congr_left (fun b hb => (hfl b hb).symm)
  rw [heq] at htm
  exact localMaxima_disjoint _ i hpm htm

/-- Witness for the amended C8 at a concrete flat series (high = low at
every bar). -/
theorem C8_masks_disjoint_when_high_eq_low_witness :
    ¬((find_local_extrema (flatSeries 5 100) 5).1.getD 1 false = true ∧
      (find_local_extrema (flatSeries 5 100) 5).2.getD 1 false = true) :=
  C8_masks_disjoint_when_high_eq_low (flatSeries 5 100) 1 (by decide)

theorem getD_map_scale (k : ℚ) (x : List ℚ) (m : ℕ) :
    (x.map (fun v => k * v)).getD m 0 = k * x.getD m 0 := by
  rcases Nat.lt_or_ge m x.length with h | h
  · rw [List.getD_eq_getElem _ _ (by simpa using h), List.getD_eq_getElem _ _ h,
      List.getElem_map]
  · rw [List.getD_eq_default _ _ (by simpa using h), List.getD_eq_default _ _ h,
      mul_zero]

theorem aheadGo_scale (k : ℚ) (hk : k ≠ 0) (x : List ℚ) (v : ℚ) (imax : ℕ) :
    ∀ fuel j, aheadGo (x.map (fun w => k * w)) (k * v) imax j fuel =
      aheadGo x v imax j fuel := by
  intro fuel
  induction fuel with
  | zero => intro j; rfl
  | succ f ih =>
    intro j
    simp only [aheadGo, getD_map_scale, mul_right_inj' hk]
    split
    · exact ih (j + 1)
    · rfl

theorem localMaximaGo_scale (k : ℚ) (hk : 0 < k) (x : List ℚ) (n : ℕ) :
    ∀ fuel i, localMaximaGo (x.map (fun w => k * w)) n i fuel =
      localMaximaGo x n i fuel := by
  intro fuel
  induction fuel with
  | zero => intro i; rfl
  | succ f ih =>
    intro i
    simp only [localMaximaGo, getD_map_scale, mul_lt_mul_left hk,
      aheadGo_scale k (ne_of_gt hk)]
    split
    · split
      · split
        · rw [ih]
        · rw [ih]
      · rw [ih]
    · rfl

theorem localMaxima_scale (k : ℚ) (hk : 0 < k) (x : List ℚ) :
    localMaxima (x.map (fun w => k * w)) = localMaxima x := by
  unfold localMaxima
  rw [List.length_map, localMaximaGo_scale k hk]

theorem insertAsc_scale (k : ℚ) (hk : 0 < k) (p : List ℚ) (i : ℕ) :
    ∀ acc, insertAsc (p.map (fun v => k * v)) i acc = insertAsc p i acc := by
  intro acc
  induction acc with
  | nil => rfl
  | cons j t ih =>
    simp only [insertAsc, getD_map_scale, mul_le_mul_left hk]
    split
    · rw [ih]
    · rfl

theorem foldl_congr_fun {α β : Type} {f g : β → α → β} (l : List α)
    (h : ∀ acc a, f acc a = g acc a) : ∀ b, l.foldl f b = l.foldl g b := by
  induction l with
  | nil => intro b; rfl
  | cons a t ih =>
    intro b
    rw [List.foldl_cons, List.foldl_cons, h, ih]

theorem argsortAsc_scale (k : ℚ) (hk : 0 < k) (p : List ℚ) :
    argsortAsc (p.map (fun v => k * v)) = argsortAsc p := by
  unfold argsortAsc
  rw [List.length_map]
  exact foldl_congr_fun _ (fun acc i => insertAsc_scale k hk p i acc) []

theorem selectByPeakDistance_scale (k : ℚ) (hk : 0 < k) (peaks : List ℕ)
    (p : List ℚ) (d : ℕ) :
    selectByPeakDistance peaks (p.map (fun v => k * v)) d =
      selectByPeakDistance peaks p d := by
  unfold selectByPeakDistance
  rw [argsortAsc_scale k hk]

theorem leftMinGo_scale (k : ℚ) (hk : 0 < k) (x : List ℚ) (v : ℚ) :
    ∀ i cur, leftMinGo (x.map (fun w => k * w)) (k * v) (k * cur) i =
      k * leftMinGo x v cur i := by
  intro i
  induction i with
  | zero =>
    intro cur
    simp only [leftMinGo, getD_map_scale, mul_le_mul_left hk]
    split
    · rw [mul_min_of_nonneg _ _ (le_of_lt hk)]
    · rfl
  | succ m ih =>
    intro cur
    simp only [leftMinGo, getD_map_scale, mul_le_mul_left hk]
    split
    · rw [← mul_min_of_nonneg _ _ (le_of_lt hk), ih]
    · rfl

theorem rightMinGo_scale (k : ℚ) (hk : 0 < k) (x : List ℚ) (v : ℚ) (imax : ℕ) :
    ∀ fuel i cur, rightMinGo (x.map (fun w => k * w)) (k * v) imax (k * cur) i fuel =
      k * rightMinGo x v imax cur i fuel := by
  intro fuel
  induction fuel with
  | zero => intro i cur; rfl
  | succ f ih =>
    intro i cur
    simp only [rightMinGo, getD_map_scale, mul_le_mul_left hk]
    split
    · rw [← mul_min_of_nonneg _ _ (le_of_lt hk), ih]
    · rfl

theorem prominenceAt_scale (k : ℚ) (hk : 0 < k) (x : List ℚ) (p : ℕ) :
    prominenceAt (x.map (fun w => k * w)) p = k * prominenceAt x p := by
  unfold prominenceAt
  dsimp only
  rw [List.length_map, getD_map_scale, leftMinGo_scale k hk,
    rightMinGo_scale k hk, ← mul_max_of_nonneg _ _ (le_of_lt hk), ← mul_sub]

theorem qsum_map_mul_left (k : ℚ) (l : List ℚ) :
    qsum (l.map (fun v => k * v)) = k * qsum l := by
  induction l with
  | nil => simp [qsum]
  | cons a t ih =>
    rw [List.map_cons, qsum_cons, qsum_cons, ih]
    ring

theorem meanOf_scale (k : ℚ) (l : List ℚ) :
    meanOf (l.map (fun v => k * v)) = k * meanOf l := by
  unfold meanOf
  rw [List.length_map, qsum_map_mul_left, mul_div_assoc]

theorem varOf_scale (k : ℚ) (l : List ℚ) :
    varOf (l.map (fun v => k * v)) = k ^ 2 * varOf l := by
  unfold varOf
  rw [List.length_map, meanOf_scale, List.map_map]
  have hfn : ((fun x => (x - k * meanOf l) ^ 2) ∘ fun v => k * v) =
      fun v => k ^ 2 * ((v - meanOf l) ^ 2) := by
    funext v
    simp only [Function.comp_apply]
    ring
  have hfn2 : (fun v => k ^ 2 * (v - meanOf l) ^ 2) =
      (fun v => k ^ 2 * v) ∘ fun v => (v - meanOf l) ^ 2 := rfl
  rw [hfn, hfn2, ← List.map_map, qsum_map_mul_left, mul_div_assoc]

theorem promPass_scale (k : ℚ) (hk : 0 < k) (p v : ℚ) :
    promPass (k * p) (k ^ 2 * v) = promPass p v := by
  unfold promPass
  refine decide_eq_decide.mpr ?_
  constructor
  · rintro ⟨h1, h2⟩
    refine ⟨nonneg_of_mul_nonneg_right ?_ hk, ?_⟩
    · simpa [mul_comm] using h1
    · have hk2 : (0 : ℚ) < k ^ 2 := by positivity
      rw [mul_pow] at h2
      have h3 : k ^ 2 * v ≤ k ^ 2 * (4 * p ^ 2) := by
        calc k ^ 2 * v ≤ 4 * (k ^ 2 * p ^ 2) := h2
        _ = k ^ 2 * (4 * p ^ 2) := by ring
      exact (mul_le_mul_left hk2).1 h3
  · rintro ⟨h1, h2⟩
    refine ⟨mul_nonneg (le_of_lt hk) h1, ?_⟩
    have hk2 : (0 : ℚ) < k ^ 2 := by positivity
    calc k ^ 2 * v ≤ k ^ 2 * (4 * p ^ 2) := (mul_le_mul_left hk2).2 h2
    _ = 4 * (k * p) ^ 2 := by ring

theorem findPeaksIdx_scale (k : ℚ) (hk : 0 < k) (x : List ℚ) (d : ℕ) (v : ℚ) :
    findPeaksIdx (x.map (fun w => k * w)) d (k ^ 2 * v) = findPeaksIdx x d v := by
  unfold findPeaksIdx
  dsimp only
  rw [localMaxima_scale k hk]
  have hpr : (localMaxima x).map (fun i => (x.map (fun w => k * w)).getD i 0) =
      ((localMaxima x).map (fun i => x.getD i 0)).map (fun v => k * v) := by
    rw [List.map_map]
    exact List.map_congr_left (fun i _ => getD_map_scale k x i)
  rw [hpr, selectByPeakDistance_scale k hk]
  refine List.filter_congr ?_
  intro p hp
  rw [prominenceAt_scale k hk, promPass_scale k hk]

theorem map_scaleBar_high (k : ℚ) (df : List Bar) :
    (df.map (scaleBar k)).map Bar.high = (df.map Bar.high).map (fun v => k * v) := by
  simp only [List.map_map]
  rfl

theorem map_scaleBar_low (k : ℚ) (df : List Bar) :
    (df.map (scaleBar k)).map Bar.low = (df.map Bar.low).map (fun v => k * v) := by
  simp only [List.map_map]
  rfl

theorem map_scaleBar_close (k : ℚ) (df : List Bar) :
    (df.map (scaleBar k)).map Bar.close = (df.map Bar.close).map (fun v => k * v) := by
  simp only [List.map_map]
  rfl

theorem find_local_extrema_scale (k : ℚ) (hk : 0 < k) (df : List Bar) :
    find_local_extrema (df.map (scaleBar k)) 5 = find_local_extrema df 5 := by
  unfold find_local_extrema
  dsimp only
  rw [map_scaleBar_high, map_scaleBar_low, List.length_map,
    varOf_scale, varOf_scale, findPeaksIdx_scale k hk]
  have hneg : ((df.map Bar.low).map (fun v => k * v)).map (fun v => -v) =
      ((df.map Bar.low).map (fun v => -v)).map (fun v => k * v) := by
    simp only [List.map_map]
    refine List.map_congr_left ?_
    intro b _
    simp only [Function.comp_apply]
    ring
  rw [hneg, findPeaksIdx_scale k hk]

theorem mul_neg_iff_left (k : ℚ) (hk : 0 < k) (a : ℚ) : k * a < 0 ↔ a < 0 := by
  constructor <;> intro h <;> nlinarith

theorem sliceW_map {α β : Type} (f : α → β) (df : List α) (i L : ℕ) :
    sliceW (df.map f) i L = (sliceW df i L).map f := by
  unfold sliceW
  rw [← List.map_drop, ← List.map_take]

theorem maskedPrices_scale (k : ℚ) (w : List Bar) (mask : List Bool)
    (price : Bar → ℚ) (hpf : ∀ b, price (scaleBar k b) = k * price b) :
    maskedPrices (w.map (scaleBar k)) mask price =
      (maskedPrices w mask price).map (fun v => k * v) := by
  unfold maskedPrices
  rw [List.zip_map_left, List.filter_map, List.map_map, List.map_map]
  have hpred : ((fun p : Bar × Bool => p.2) ∘ Prod.map (scaleBar k) id) =
      fun p : Bar × Bool => p.2 := rfl
  rw [hpred]
  have hmapfn : ((fun p : Bar × Bool => price p.1) ∘ Prod.map (scaleBar k) id) =
      ((fun v => k * v) ∘ fun p : Bar × Bool => price p.1) := by
    funext p
    show price (scaleBar k p.1) = k * price p.1
    exact hpf p.1
  rw [hmapfn]

theorem idxOfMaxFirst_scale (k : ℚ) (hk : 0 < k) (l : List ℚ) :
    idxOfMaxFirst (l.map (fun v => k * v)) = idxOfMaxFirst l := by
  unfold idxOfMaxFirst
  rw [List.length_map]
  refine foldl_congr_fun _ ?_ 0
  intro best i
  simp only [getD_map_scale, mul_lt_mul_left hk]

theorem lastClose_scale (k : ℚ) (w : List Bar) :
    lastClose (w.map (scaleBar k)) = k * lastClose w := by
  unfold lastClose
  rw [map_scaleBar_close, List.getLast?_map]
  rcases h : (w.map Bar.close).getLast? with - | a
  · simp [mul_zero]
  · simp

theorem firstClose_scale (k : ℚ) (w : List Bar) :
    firstClose (w.map (scaleBar k)) = k * firstClose w := by
  unfold firstClose
  rw [map_scaleBar_close, getD_map_scale]

theorem foldl_max_scale (k : ℚ) (hk : 0 ≤ k) :
    ∀ (t : List ℚ) (a : ℚ),
      List.foldl max (k * a) (t.map (fun v => k * v)) = k * List.foldl max a t := by
  intro t
  induction t with
  | nil => intro a; rfl
  | cons b u ih =>
    intro a
    rw [List.map_cons, List.foldl_cons, List.foldl_cons,
      ← mul_max_of_nonneg _ _ hk, ih]

theorem foldl_min_scale (k : ℚ) (hk : 0 ≤ k) :
    ∀ (t : List ℚ) (a : ℚ),
      List.foldl min (k * a) (t.map (fun v => k * v)) = k * List.foldl min a t := by
  intro t
  induction t with
  | nil => intro a; rfl
  | cons b u ih =>
    intro a
    rw [List.map_cons, List.foldl_cons, List.foldl_cons,
      ← mul_min_of_nonneg _ _ hk, ih]

theorem maxOf_scale (k : ℚ) (hk : 0 ≤ k) (l : List ℚ) :
    maxOf (l.map (fun v => k * v)) = k * maxOf l := by
  rcases l with - | ⟨a, t⟩
  · rw [List.map_nil]
    exact (mul_zero k).symm
  · rw [List.map_cons, maxOf, maxOf, foldl_max_scale k hk]

theorem minOf_scale (k : ℚ) (hk : 0 ≤ k) (l : List ℚ) :
    minOf (l.map (fun v => k * v)) = k * minOf l := by
  rcases l with - | ⟨a, t⟩
  · rw [List.map_nil]
    exact (mul_zero k).symm
  · rw [List.map_cons, minOf, minOf, foldl_min_scale k hk]

theorem lastN_map {α β : Type} (f : α → β) (n : ℕ) (l : List α) :
    lastN n (l.map f) = (lastN n l).map f := by
  unfold lastN
  rw [List.length_map, ← List.map_drop]

theorem polyfitSlope_scale (k : ℚ) (ys : List ℚ) :
    polyfitSlope (ys.map (fun v => k * v)) = k * polyfitSlope ys := by
  unfold polyfitSlope
  dsimp only
  rw [List.length_map, qsum_map_mul_left]
  have hsxy : qsum (((List.map (fun i : ℕ => (i : ℚ)) (List.range ys.length)).zip
      (ys.map (fun v => k * v))).map (fun p => p.1 * p.2)) =
      k * qsum (((List.map (fun i : ℕ => (i : ℚ)) (List.range ys.length)).zip ys).map
        (fun p => p.1 * p.2)) := by
    rw [List.zip_map_right, List.map_map]
    have hfn : ((fun p : ℚ × ℚ => p.1 * p.2) ∘ Prod.map id fun v => k * v) =
        (fun v => k * v) ∘ fun p : ℚ × ℚ => p.1 * p.2 := by
      funext p
      show p.1 * (k * p.2) = k * (p.1 * p.2)
      ring
    rw [hfn, ← List.map_map, qsum_map_mul_left]
  rw [hsxy]
  have hnum : (ys.length : ℚ) *
        (k * qsum (((List.map (fun i : ℕ => (i : ℚ)) (List.range ys.length)).zip ys).map
          (fun p => p.1 * p.2))) -
      qsum (List.map (fun i : ℕ => (i : ℚ)) (List.range ys.length)) * (k * qsum ys) =
      k * ((ys.length : ℚ) *
        qsum (((List.map (fun i : ℕ => (i : ℚ)) (List.range ys.length)).zip ys).map
          (fun p => p.1 * p.2)) -
      qsum (List.map (fun i : ℕ => (i : ℚ)) (List.range ys.length)) * qsum ys) := by
    ring
  rw [hnum, mul_div_assoc]

theorem channelsWindowRule_scale (k : ℚ) (hk : 0 < k) (w : List Bar) :
    channelsWindowRule (w.map (scaleBar k)) = channelsWindowRule w := by
  unfold channelsWindowRule
  dsimp only
  rw [map_scaleBar_high, map_scaleBar_low, polyfitSlope_scale, polyfitSlope_scale]
  simp only [mul_pos_iff_of_pos_left hk, mul_neg_iff_left k hk, ← mul_sub,
    abs_mul, abs_of_pos hk, mul_div_mul_left _ _ (ne_of_gt hk)]

theorem flagsWindowRule_scale (k : ℚ) (hk : 0 < k) (w : List Bar) (L : ℕ) :
    flagsWindowRule (w.map (scaleBar k)) L = flagsWindowRule w L := by
  unfold flagsWindowRule
  dsimp only
  rw [← List.map_take, ← List.map_drop, lastClose_scale, firstClose_scale,
    lastClose_scale, firstClose_scale, ← mul_sub, ← mul_sub,
    mul_div_mul_left _ _ (ne_of_gt hk), mul_div_mul_left _ _ (ne_of_gt hk)]

theorem hsWindowRule_scale (k : ℚ) (hk : 0 < k) (w : List Bar) (mask : List Bool) :
    hsWindowRule (w.map (scaleBar k)) mask = hsWindowRule w mask := by
  unfold hsWindowRule
  rw [maskedPrices_scale k w mask Bar.high (fun b => rfl)]
  dsimp only
  rw [List.length_map, idxOfMaxFirst_scale k hk]
  simp only [getD_map_scale]
  by_cases h1 : 3 ≤ (maskedPrices w mask Bar.high).length
  · rw [if_pos h1, if_pos h1]
    by_cases h2 : 0 < idxOfMaxFirst (maskedPrices w mask Bar.high) ∧
        idxOfMaxFirst (maskedPrices w mask Bar.high) <
          (maskedPrices w mask Bar.high).length - 1
    · rw [if_pos h2, if_pos h2]
      have hls : k * (maskedPrices w mask Bar.high).getD
            (idxOfMaxFirst (maskedPrices w mask Bar.high) - 1) 0 * (102 / 100) =
          k * ((maskedPrices w mask Bar.high).getD
            (idxOfMaxFirst (maskedPrices w mask Bar.high) - 1) 0 * (102 / 100)) := by
        ring
      have hrs : k * (maskedPrices w mask Bar.high).getD
            (idxOfMaxFirst (maskedPrices w mask Bar.high) + 1) 0 * (102 / 100) =
          k * ((maskedPrices w mask Bar.high).getD
            (idxOfMaxFirst (maskedPrices w mask Bar.high) + 1) 0 * (102 / 100)) := by
        ring
      rw [hls, hrs]
      simp only [mul_lt_mul_left hk, ← mul_sub, abs_mul, abs_of_pos hk,
        mul_div_mul_left _ _ (ne_of_gt hk)]
    · rw [if_neg h2, if_neg h2]
  · rw [if_neg h1, if_neg h1]

theorem rectWindowRule_scale (k : ℚ) (hk : 0 < k) (w : List Bar) (tol : ℚ) :
    rectWindowRule (w.map (scaleBar k)) tol = rectWindowRule w tol := by
  unfold rectWindowRule
  dsimp only
  rw [map_scaleBar_high, map_scaleBar_low, maxOf_scale k hk.le, minOf_scale k hk.le,
    lastClose_scale]
  have htr : (((w.map Bar.high).map (fun v => k * v)).filter
      (fun h => decide (k * maxOf (w.map Bar.high) * (1 - tol) ≤ h))).length =
      ((w.map Bar.high).filter
        (fun h => decide (maxOf (w.map Bar.high) * (1 - tol) ≤ h))).length := by
    rw [List.filter_map, List.length_map]
    congr 1
    refine List.filter_congr ?_
    intro h _
    simp only [Function.comp_apply]
    refine decide_eq_decide.mpr ?_
    rw [mul_assoc, mul_le_mul_left hk]
  have hts : (((w.map Bar.low).map (fun v => k * v)).filter
      (fun l => decide (l ≤ k * minOf (w.map Bar.low) * (1 + tol)))).length =
      ((w.map Bar.low).filter
        (fun l => decide (l ≤ minOf (w.map Bar.low) * (1 + tol)))).length := by
    rw [List.filter_map, List.length_map]
    congr 1
    refine List.filter_congr ?_
    intro l _
    simp only [Function.comp_apply]
    refine decide_eq_decide.mpr ?_
    rw [mul_assoc, mul_le_mul_left hk]
  rw [htr, hts]
  have hmid : ((k * minOf (w.map Bar.low) + k * maxOf (w.map Bar.high)) / 2 <
      k * lastClose w) = ((minOf (w.map Bar.low) + maxOf (w.map Bar.high)) / 2 <
      lastClose w) := by
    refine propext ?_
    rw [← mul_add, mul_div_assoc, mul_lt_mul_left hk]
  simp only [hmid]

theorem tripleWindowRule_scale (k : ℚ) (hk : 0 < k) (w : List Bar)
    (mask : List Bool) (price : Bar → ℚ)
    (hpf : ∀ b, price (scaleBar k b) = k * price b) :
    tripleWindowRule (w.map (scaleBar k)) mask price = tripleWindowRule w mask price := by
  unfold tripleWindowRule
  rw [maskedPrices_scale k w mask price hpf]
  dsimp only
  rw [List.length_map, lastN_map, maxOf_scale k hk.le, minOf_scale k hk.le]
  have hcond : ((k * maxOf (lastN 3 (maskedPrices w mask price)) -
      k * minOf (lastN 3 (maskedPrices w mask price))) /
      (k * maxOf (lastN 3 (maskedPrices w mask price)))) =
      ((maxOf (lastN 3 (maskedPrices w mask price)) -
        minOf (lastN 3 (maskedPrices w mask price))) /
        maxOf (lastN 3 (maskedPrices w mask price))) := by
    rw [← mul_sub, mul_div_mul_left _ _ (ne_of_gt hk)]
  rw [hcond]

theorem doubleWindowRule_scale (k : ℚ) (hk : 0 < k) (w : List Bar)
    (mask : List Bool) (price : Bar → ℚ)
    (hpf : ∀ b, price (scaleBar k b) = k * price b) :
    doubleWindowRule (w.map (scaleBar k)) mask price = doubleWindowRule w mask price := by
  unfold doubleWindowRule
  rw [maskedPrices_scale k w mask price hpf]
  dsimp only
  rw [List.length_map, lastN_map, maxOf_scale k hk.le, getD_map_scale, getD_map_scale]
  have hcond : (|k * (lastN 2 (maskedPrices w mask price)).getD 0 0 -
      k * (lastN 2 (maskedPrices w mask price)).getD 1 0| /
      (k * maxOf (lastN 2 (maskedPrices w mask price)))) =
      (|(lastN 2 (maskedPrices w mask price)).getD 0 0 -
        (lastN 2 (maskedPrices w mask price)).getD 1 0| /
        maxOf (lastN 2 (maskedPrices w mask price))) := by
    rw [← mul_sub, abs_mul, abs_of_pos hk, mul_div_mul_left _ _ (ne_of_gt hk)]
  rw [hcond]

theorem windowMap_map_invariant (f : Bar → Bar) (rule : List Bar → ℕ × ℕ) (L : ℕ)
    (df : List Bar) (hrule : ∀ w, rule (w.map f) = rule w) :
    windowMap rule L (df.map f) = windowMap rule L df := by
  unfold windowMap
  rw [List.length_map]
  split
  · rfl
  · dsimp only
    have hmap : (List.range df.length).map
        (fun i => if i < L then (0, 0) else rule (sliceW (df.map f) i L)) =
        (List.range df.length).map
        (fun i => if i < L then ((0 : ℕ), (0 : ℕ)) else rule (sliceW df i L)) := by
      refine List.map_congr_left ?_
      intro i _
      by_cases hiL : i < L
      · rw [if_pos hiL, if_pos hiL]
      · rw [if_neg hiL, if_neg hiL, sliceW_map, hrule]
    rw [hmap]

theorem detect_head_and_shoulders_scale (k : ℚ) (hk : 0 < k) (df : List Bar) :
    detect_head_and_shoulders (df.map (scaleBar k)) 60 =
      detect_head_and_shoulders df 60 := by
  unfold detect_head_and_shoulders
  rw [List.length_map, find_local_extrema_scale k hk]
  split
  · rfl
  · refine List.map_congr_left ?_
    intro i _
    by_cases hiL : i < 60
    · rw [if_pos hiL, if_pos hiL]
    · rw [if_neg hiL, if_neg hiL, sliceW_map, hsWindowRule_scale k hk]

theorem detect_triple_top_bottom_scale (k : ℚ) (hk : 0 < k) (df : List Bar) :
    detect_triple_top_bottom (df.map (scaleBar k)) 60 =
      detect_triple_top_bottom df 60 := by
  unfold detect_triple_top_bottom
  rw [List.length_map, find_local_extrema_scale k hk]
  split
  · rfl
  · dsimp only
    refine congrArg₂ Prod.mk ?_ ?_
    · refine List.map_congr_left ?_
      intro i _
      by_cases hiL : i < 60
      · rw [if_pos hiL, if_pos hiL]
      · rw [if_neg hiL, if_neg hiL, sliceW_map,
          tripleWindowRule_scale k hk _ _ Bar.high (fun b => rfl)]
    · refine List.map_congr_left ?_
      intro i _
      by_cases hiL : i < 60
      · rw [if_pos hiL, if_pos hiL]
      · rw [if_neg hiL, if_neg hiL, sliceW_map,
          tripleWindowRule_scale k hk _ _ Bar.low (fun b => rfl)]

theorem detect_double_top_bottom_scale (k : ℚ) (hk : 0 < k) (df : List Bar) :
    detect_double_top_bottom (df.map (scaleBar k)) 50 =
      detect_double_top_bottom df 50 := by
  unfold detect_double_top_bottom
  rw [List.length_map, find_local_extrema_scale k hk]
  split
  · rfl
  · dsimp only
    refine congrArg₂ Prod.mk ?_ ?_
    · refine List.map_congr_left ?_
      intro i _
      by_cases hiL : i < 50
      · rw [if_pos hiL, if_pos hiL]
      · rw [if_neg hiL, if_neg hiL, sliceW_map,
          doubleWindowRule_scale k hk _ _ Bar.high (fun b => rfl)]
    · refine List.map_congr_left ?_
      intro i _
      by_cases hiL : i < 50
      · rw [if_pos hiL, if_pos hiL]
      · rw [if_neg hiL, if_neg hiL, sliceW_map,
          doubleWindowRule_scale k hk _ _ Bar.low (fun b => rfl)]

/-- Amended C2: multiplying every price field by a positive constant
leaves eleven of the thirteen classifier outputs unchanged; the two
triangle outputs are excluded because their 0.01 slope thresholds are
absolute. -/
theorem C2_scale_invariance_except_triangles (df : List Bar) (k : ℚ) (hk : 0 < k) :
    detect_head_and_shoulders (df.map (scaleBar k)) 60 =
      detect_head_and_shoulders df 60 ∧
    detect_rectangle (df.map (scaleBar k)) 40 (2 / 100) =
      detect_rectangle df 40 (2 / 100) ∧
    detect_triple_top_bottom (df.map (scaleBar k)) 60 =
      detect_triple_top_bottom df 60 ∧
    detect_double_top_bottom (df.map (scaleBar k)) 50 =
      detect_double_top_bottom df 50 ∧
    detect_channels (df.map (scaleBar k)) 40 = detect_channels df 40 ∧
    detect_flags (df.map (scaleBar k)) 30 = detect_flags df 30 := by
  refine ⟨detect_head_and_shoulders_scale k hk df, ?_,
    detect_triple_top_bottom_scale k hk df,
    detect_double_top_bottom_scale k hk df, ?_, ?_⟩
  · rw [detect_rectangle, detect_rectangle]
    exact windowMap_map_invariant (scaleBar k) _ 40 df
      (fun w => rectWindowRule_scale k hk w (2 / 100))
  · rw [detect_channels, detect_channels]
    exact windowMap_map_invariant (scaleBar k) _ 40 df
      (fun w => channelsWindowRule_scale k hk w)
  · rw [detect_flags, detect_flags]
    exact windowMap_map_invariant (scaleBar k) _ 30 df
      (fun w => flagsWindowRule_scale k hk w 30)

/-- Witness for the amended C2 at the 25-bar test series with k = 2. -/
theorem C2_scale_invariance_except_triangles_witness :
    detect_head_and_shoulders (shortSeries.map (scaleBar 2)) 60 =
      detect_head_and_shoulders shortSeries 60 ∧
    detect_rectangle (shortSeries.map (scaleBar 2)) 40 (2 / 100) =
      detect_rectangle shortSeries 40 (2 / 100) ∧
    detect_channels (shortSeries.map (scaleBar 2)) 40 = detect_channels shortSeries 40 :=
  ⟨(C2_scale_invariance_except_triangles shortSeries 2 (by decide)).1,
   (C2_scale_invariance_except_triangles shortSeries 2 (by decide)).2.1,
   (C2_scale_invariance_except_triangles shortSeries 2 (by decide)).2.2.2.2.1⟩

end Theorems

end Loopweave
